import Mathlib

/-! cockcli: the `get` and `update` commands and the Cockpit client.

A shallow embedding of `internal/client/client.go`, `internal/commands/util.go`,
`internal/config/config.go`, `internal/commands/get.go` and
`internal/commands/update.go`.

Every function of the repository is translated control-flow for control-flow.
What the Go code obtains from collaborators outside the repository (the
operating system, the HTTP transport, `encoding/json`, `yaml.v3`,
`gojsondiff`) is a field of `Env`: a run of the program is a function of the
command line and of what those collaborators answer.  Each run yields the
ordered list of effects it performed (`Event`) together with what it returned:
`.ok` for a nil Go `error`, `.error` otherwise.
-/

namespace Cockcli

/-! ## Errors -/

/-- Go `error` values seen by the program. -/
inductive Err where
  /-- an error value produced by a collaborator (os, net/http, json, yaml, differ, formatter) -/
  | lib (text : String)
  /-- `errors.New(text)` or `fmt.Errorf` without a wrapped cause -/
  | new (text : String)
  /-- `cli.Exit(text, code)` -/
  | exit (text : String) (code : Nat)
  /-- `fmt.Errorf(pfx + ": %w", cause)` -/
  | wrap (pfx : String) (cause : Err)
  /-- the optimistic-locking error of `update`, carrying both revisions -/
  | conflict (serverRev localRev : Int)
  /-- a run-time panic: the program aborts at this point -/
  | crash (text : String)
  deriving DecidableEq, Repr

/-- Text of an error, as `Error()` prints it. -/
def Err.text : Err → String
  | .lib t => t
  | .new t => t
  | .exit t _ => t
  | .wrap p c => p ++ ": " ++ c.text
  | .conflict s l =>
      "document changed on server (server rev " ++ toString s ++ " ≠ local rev "
        ++ toString l ++ ")"
  | .crash t => "panic: runtime error: " ++ t

/-! ## Data of the client package -/

/-- The anonymous struct `{ ID string "_id"; Rev int64 "_modified" }` that
`GetDoc`, `UpdateDoc` and `update` decode documents into. -/
structure Meta where
  ID : String
  Rev : Int
  deriving DecidableEq, Repr

/-- Zero value of `Meta`. -/
def Meta.zero : Meta := ⟨"", 0⟩

/-- Go type `client.Client` (the embedded `*http.Client` is part of the transport). -/
structure Client where
  BaseURL : String
  Token : String
  deriving DecidableEq, Repr

/-- Go type `client.Document`. -/
structure Document where
  ID : String
  Rev : Int
  Raw : String
  Filename : String
  deriving DecidableEq, Repr

/-- Request bodies the client builds (`map[string]any` literals in the source). -/
inductive Payload where
  /-- `map[string]any{}` of `FetchDocuments` -/
  | all
  /-- `{"filter": {"_id": id}, "limit": limit}` of `GetDoc` -/
  | byID (id : String) (limit : Nat)
  /-- `{"data": json.RawMessage(docRaw)}` of `UpdateDoc` -/
  | data (docRaw : String)
  deriving DecidableEq, Repr

/-- HTTP method chosen by `apiRequest`. -/
inductive Method where
  | get
  | post
  deriving DecidableEq, Repr

/-- What the program reads of an HTTP response. -/
structure Response where
  StatusCode : Nat
  Body : String
  deriving DecidableEq, Repr

/-- Configuration of `formatter.AsciiFormatterConfig`. -/
structure AsciiFormatterConfig where
  ShowArrayIndex : Bool
  Coloring : Bool
  deriving DecidableEq, Repr

/-! ## Effects -/

/-- Effects of a run, in the order they happen. -/
inductive Event where
  /-- `os.ReadFile(path)` -/
  | readFile (path : String)
  /-- `os.MkdirAll(path, 0o755)` -/
  | mkdirAll (path : String)
  /-- `os.WriteFile(path, data, 0o644)` -/
  | writeFile (path : String) (data : String)
  /-- `c.Do(req)`: one HTTP request sent to the remote API -/
  | http (m : Method) (path : String) (body : Option Payload)
  /-- text written to standard output by `fmt.Println` / `fmt.Printf` -/
  | stdout (text : String)
  /-- the call `cl.GetDoc(coll, id)` -/
  | callGetDoc (coll id : String)
  /-- the call `cl.UpdateDoc(coll, docRaw)` -/
  | callUpdateDoc (coll docRaw : String)
  deriving DecidableEq, Repr

/-- An event that touches the local filesystem for writing. -/
def Event.isFsWrite : Event → Bool
  | .mkdirAll _ => true
  | .writeFile _ _ => true
  | _ => false

/-- An event that is an HTTP request. -/
def Event.isHttp : Event → Bool
  | .http _ _ _ => true
  | _ => false

/-- An event that is a call of `UpdateDoc`. -/
def Event.isUpdateDocCall : Event → Bool
  | .callUpdateDoc _ _ => true
  | _ => false

/-- An HTTP request to the save endpoint of some collection. -/
def Event.isSaveRequest (coll : String) : Event → Bool
  | .http _ path _ => path == "/api/collections/save/" ++ coll
  | _ => false

/-! ## Collaborators -/

/-- Answers of the collaborators outside the repository.  `V` is the type of
decoded `interface{}` values, `D` the type of `gojsondiff.Diff`. -/
structure Env (V D : Type) where
  /-- `url.Parse(rawURL)`; the result is kept as the URL text -/
  urlParse : String → Except Err String
  /-- `http.NewRequest` on the composed URL (lines 33-50 of client.go) -/
  newRequest : Client → Method → String → Option Payload → Option Err
  /-- `c.Do(req)` -/
  roundTrip : Client → Method → String → Option Payload → Except Err Response
  /-- `json.Decoder.Decode` into `[]string` -/
  decodeNames : String → Except Err (List String)
  /-- `json.Decoder.Decode` into `struct{ Entries []json.RawMessage }` -/
  decodeEntries : String → Except Err (List String)
  /-- `json.Decoder.Decode` into `struct{ Data struct{ Rev int64 } }` -/
  decodeSaved : String → Except Err Int
  /-- `json.Unmarshal(raw, &meta)`: the struct as left by the decoder, and its error -/
  unmarshalMeta : String → Meta × Option Err
  /-- `os.MkdirAll(path, 0o755)` -/
  mkdirAll : String → Option Err
  /-- `os.WriteFile(path, data, 0o644)` -/
  writeFile : String → String → Option Err
  /-- `os.ReadFile(path)` -/
  readFile : String → Except Err String
  /-- `filepath.Join(elems...)` -/
  pathJoin : List String → String
  /-- `strings.ToLower` -/
  toLower : String → String
  /-- `json.Indent(&pretty, raw, "", "  ")` -/
  jsonIndent : String → Except Err String
  /-- `yaml.Marshal(data)` -/
  yamlMarshal : V → Except Err String
  /-- `yaml.Unmarshal(raw, &y)` -/
  yamlUnmarshal : String → Except Err V
  /-- `json.MarshalIndent(y, "", "  ")` on a decoded value -/
  marshalIndent : V → Except Err String
  /-- `json.MarshalIndent(svrDoc.Raw, "", "  ")` on a `json.RawMessage` -/
  marshalIndentRaw : String → Except Err String
  /-- `json.Unmarshal(svrJSON, &svrParsed)` -/
  jsonUnmarshal : String → Except Err V
  /-- `diff.New().Compare(left, right)` -/
  compare : String → String → Except Err D
  /-- `d.Modified()` -/
  modified : D → Bool
  /-- `formatter.NewAsciiFormatter(left, cfg).Format(d)` -/
  format : V → AsciiFormatterConfig → D → Except Err String

/-- A run: the effects performed, and the result. -/
abbrev Run (α : Type) := List Event × Except Err α

/-! ## internal/client/client.go -/

/-- `client.New` (lines 24-30). -/
def New {V D : Type} (env : Env V D) (rawURL token : String) : Except Err Client :=
  match env.urlParse rawURL with
  | .error e => .error e
  | .ok u => .ok ⟨u, token⟩

/-- `(*Client).apiRequest` (lines 32-67).  `v` is the decoder of the target the
caller passes (`none` for a nil `v`), `out` the value the target holds before
the call.  With a body, line 44 sets a header on the request before the error
of `http.NewRequest` is looked at: a failed `NewRequest` leaves a nil request
and the program panics there. -/
def apiRequest {V D α : Type} (env : Env V D) (c : Client) (path : String)
    (body : Option Payload) (v : Option (String → Except Err α)) (out : α) : Run α :=
  let m : Method := if body.isSome then .post else .get
  match env.newRequest c m path body with
  | some e =>
    if body.isSome then
      ([], .error (.crash "invalid memory address or nil pointer dereference"))
    else
      ([], .error e)
  | none =>
    match env.roundTrip c m path body with
    | .error e => ([.http m path body], .error e)
    | .ok resp =>
      if resp.StatusCode ≥ 300 then
        ([.http m path body],
          .error (.new ("API error " ++ toString resp.StatusCode ++ ": " ++ resp.Body)))
      else
        match v with
        | none => ([.http m path body], .ok out)
        | some dec =>
          match dec resp.Body with
          | .error e => ([.http m path body], .error e)
          | .ok a => ([.http m path body], .ok a)

/-- `(*Client).ListCollections` (lines 70-76). -/
def ListCollections {V D : Type} (env : Env V D) (c : Client) : Run (List String) :=
  match apiRequest env c "/api/collections/listCollections" none (some env.decodeNames) [] with
  | (ev, .error e) => (ev, .error e)
  | (ev, .ok out) => (ev, .ok out)

/-- `(*Client).FetchDocuments` (lines 79-89). -/
def FetchDocuments {V D : Type} (env : Env V D) (c : Client) (coll : String) :
    Run (List String) :=
  match apiRequest env c ("/api/collections/get/" ++ coll) (some .all)
      (some env.decodeEntries) [] with
  | (ev, .error e) => (ev, .error e)
  | (ev, .ok entries) => (ev, .ok entries)

/-- `(*Client).GetDoc` (lines 100-128). -/
def GetDoc {V D : Type} (env : Env V D) (c : Client) (coll id : String) : Run Document :=
  match apiRequest env c ("/api/collections/get/" ++ coll) (some (.byID id 1))
      (some env.decodeEntries) [] with
  | (ev, .error e) => (ev, .error e)
  | (ev, .ok entries) =>
    match entries with
    | [] => (ev, .error (.new "document not found"))
    | raw :: _ =>
      -- `_ = json.Unmarshal(raw, &meta)`: the error is dropped, the struct is used
      let meta := (env.unmarshalMeta raw).1
      match env.mkdirAll "docs" with
      | some e => (ev ++ [.mkdirAll "docs"], .error e)
      | none =>
        let filename := env.pathJoin ["docs", coll ++ "-" ++ meta.ID ++ ".json"]
        match env.writeFile filename raw with
        | some e => (ev ++ [.mkdirAll "docs", .writeFile filename raw], .error e)
        | none =>
          (ev ++ [.mkdirAll "docs", .writeFile filename raw],
            .ok ⟨meta.ID, meta.Rev, raw, filename⟩)

/-- `(*Client).UpdateDoc` (lines 131-153). -/
def UpdateDoc {V D : Type} (env : Env V D) (c : Client) (coll docRaw : String) : Run Int :=
  match env.unmarshalMeta docRaw with
  | (_, some e) => ([], .error e)
  | (meta, none) =>
    if meta.ID = "" then
      ([], .error (.new "document JSON missing _id field"))
    else
      match apiRequest env c ("/api/collections/save/" ++ coll) (some (.data docRaw))
          (some env.decodeSaved) 0 with
      | (ev, .error e) => (ev, .error e)
      | (ev, .ok rev) => (ev, .ok rev)

/-! ## internal/config/config.go -/

/-- Go type `config.Instance`. -/
structure Instance where
  URL : String
  APIKey : String
  deriving DecidableEq, Repr

/-- Go type `config.Config`; the map `Instances` is its lookup function. -/
structure Config where
  APIKey : String
  Instances : String → Option Instance

/-- `(*Config).Resolve` (lines 57-68): URL and token of an instance alias. -/
def Config.Resolve (c : Config) (aliasName : String) : Except Err (String × String) :=
  match c.Instances aliasName with
  | none => .error (.new ("instance alias not found in config: " ++ aliasName))
  | some inst =>
    let url := inst.URL
    let token := if inst.APIKey = "" then c.APIKey else inst.APIKey
    .ok (url, token)

/-! ## internal/commands/util.go -/

/-- What a command reads of its `*cli.Context`. -/
structure Ctx where
  /-- positional arguments, `cCtx.Args()` -/
  args : List String
  /-- `cCtx.Bool("dry-run")` -/
  dryRun : Bool
  /-- `cCtx.String("format")` -/
  format : String
  /-- `cCtx.String("tempfile")` -/
  tempfile : String
  /-- `cCtx.String("output")` -/
  output : String
  /-- `cCtx.String("url")` -/
  url : String
  /-- `cCtx.String("token")` -/
  token : String
  /-- `cCtx.String("instance")` -/
  aliasName : String
  /-- `cCtx.App.Metadata["config"]` -/
  config : Config

/-- `cCtx.NArg()`. -/
def Ctx.NArg (c : Ctx) : Nat := c.args.length

/-- `cCtx.Args().Get(n)`: the n-th argument, or the empty string. -/
def Ctx.Get (c : Ctx) (n : Nat) : String := c.args.getD n ""

/-- `getClient` (lines 13-41 of util.go). -/
def getClient {V D : Type} (env : Env V D) (cCtx : Ctx) : Except Err Client :=
  let url := cCtx.url
  let token := cCtx.token
  let aliasName := cCtx.aliasName
  match cCtx.config.Resolve aliasName with
  | .error e => .error e
  | .ok (cfgURL, cfgToken) =>
    let url := if url = "" then cfgURL else url
    let token := if token = "" then cfgToken else token
    if url = "" then
      .error (.new "Cockpit base URL not provided (flag --url or config)")
    else if token = "" then
      .error (.new "API token not provided (flag --token / COCKPIT_TOKEN or config)")
    else
      New env url token

/-! ## The conversions between JSON and YAML -/

/-- The four codec calls of the yaml format, over any representation `J` of a
JSON text, `Y` of a YAML text and `V` of a decoded value. -/
structure Codecs (J Y V : Type) where
  /-- `json.Unmarshal(raw, &data)` with `data interface{}` -/
  jsonUnmarshal : J → Except Err V
  /-- `yaml.Marshal(data)` -/
  yamlMarshal : V → Except Err Y
  /-- `yaml.Unmarshal(raw, &y)` with `y interface{}` -/
  yamlUnmarshal : Y → Except Err V
  /-- `json.MarshalIndent(y, "", "  ")` -/
  marshalIndent : V → Except Err J

/-- Lines 73-81 of get.go, the yaml case: decode the JSON document, encode it
as YAML. -/
def Codecs.toYAML {J Y V : Type} (c : Codecs J Y V) (raw : J) : Except Err Y :=
  match c.jsonUnmarshal raw with
  | .error e => .error (.wrap "decode json" e)
  | .ok data =>
    match c.yamlMarshal data with
    | .error e => .error (.wrap "encode yaml" e)
    | .ok y => .ok y

/-- Lines 78-85 of update.go, the yaml case: decode the YAML document, encode
it as JSON. -/
def Codecs.toJSON {J Y V : Type} (c : Codecs J Y V) (raw : Y) : Except Err J :=
  match c.yamlUnmarshal raw with
  | .error e => .error (.wrap "invalid YAML" e)
  | .ok y =>
    match c.marshalIndent y with
    | .error e => .error e
    | .ok raw => .ok raw

/-- The codec calls as the environment answers them, on texts. -/
def Env.codecs {V D : Type} (env : Env V D) : Codecs String String V where
  jsonUnmarshal := env.jsonUnmarshal
  yamlMarshal := env.yamlMarshal
  yamlUnmarshal := env.yamlUnmarshal
  marshalIndent := env.marshalIndent

/-! ## internal/commands/get.go -/

/-- Text of line 98. -/
def savedText (id : String) (rev : Int) (filename : String) : String :=
  "saved " ++ id ++ " (rev " ++ toString rev ++ ") -> " ++ filename ++ "\n"

/-- Lines 57-87: the bytes to write and the file name, by format. -/
def getOutput {V D : Type} (env : Env V D) (cCtx : Ctx) (coll id format : String)
    (doc : Document) : Except Err (String × String) :=
  if format = "json" then
    match env.jsonIndent doc.Raw with
    | .error e => .error (.wrap "failed to format JSON" e)
    | .ok pretty =>
      if cCtx.output ≠ "" then .ok (pretty, cCtx.output)
      else .ok (pretty, env.pathJoin ["docs", coll, id ++ ".json"])
  else if format = "yaml" then
    match env.codecs.toYAML doc.Raw with
    | .error e => .error e
    | .ok y =>
      if cCtx.output ≠ "" then .ok (y, cCtx.output)
      else .ok (y, env.pathJoin ["docs", coll, id ++ ".yaml"])
  else
    .ok ("", "")

/-- The `Action` of `GetCmd` (lines 35-100). -/
def getAction {V D : Type} (env : Env V D) (cCtx : Ctx) : Run Unit :=
  if cCtx.NArg ≠ 2 then
    ([], .error (.exit "collection and id are required" 1))
  else
    let coll := cCtx.Get 0
    let id := cCtx.Get 1
    let format := env.toLower cCtx.format
    if format ≠ "json" ∧ format ≠ "yaml" then
      ([], .error (.exit "format must be json or yaml" 1))
    else
      match getClient env cCtx with
      | .error e => ([], .error e)
      | .ok cl =>
        match GetDoc env cl coll id with
        | (ev, .error e) => (.callGetDoc coll id :: ev, .error e)
        | (ev, .ok doc) =>
          match getOutput env cCtx coll id format doc with
          | .error e => (.callGetDoc coll id :: ev, .error e)
          | .ok (outBytes, filename) =>
            let dir := env.pathJoin ["docs", coll]
            match env.mkdirAll dir with
            | some e => (.callGetDoc coll id :: ev ++ [.mkdirAll dir], .error e)
            | none =>
              match env.writeFile filename outBytes with
              | some e =>
                (.callGetDoc coll id :: ev ++ [.mkdirAll dir, .writeFile filename outBytes],
                  .error e)
              | none =>
                (.callGetDoc coll id :: ev ++ [.mkdirAll dir, .writeFile filename outBytes,
                  .stdout (savedText doc.ID doc.Rev filename)], .ok ())

/-! ## internal/commands/update.go -/

/-- `strings.Split(s, sep)` for a one-character separator, on the characters of `s`. -/
def splitChars (sep : Char) : List Char → List (List Char)
  | [] => [[]]
  | c :: cs =>
    if c = sep then [] :: splitChars sep cs
    else
      match splitChars sep cs with
      | [] => [[c]]
      | l :: ls => (c :: l) :: ls

/-- `strings.Split(s, "\n")`. -/
def splitLines (s : String) : List String :=
  (splitChars '\n' s.data).map String.mk

/-- `strings.Contains(line, "+") || strings.Contains(line, "-")` (line 150). -/
def lineShown (line : String) : Bool :=
  line.data.elem '+' || line.data.elem '-'

/-- The lines the loop of lines 149-153 prints, in order. -/
def printedDiffLines (ascii : String) : List String :=
  (splitLines ascii).filter lineShown

/-- Lines 148-153: the header and the printed lines, as output events. -/
def diffReport (ascii : String) : List Event :=
  .stdout "=== Diff (server → local) ===\n" ::
    (printedDiffLines ascii).map (fun line => Event.stdout (line ++ "\n"))

/-- Text of line 128. -/
def noChangeText : String := "No changes detected – nothing to do.\n"

/-- Text of line 162. -/
def dryRunText (coll id : String) (rev : Int) : String :=
  "[DRY‑RUN] Would update collection \x27" ++ coll ++ "\x27 document \x27" ++ id
    ++ "\x27 (rev " ++ toString rev ++ ") via /api/collections/save/" ++ coll ++ "\n"

/-- Text of line 170. -/
def updatedText (id : String) (oldRev newRev : Int) : String :=
  "updated " ++ id ++ ": rev " ++ toString oldRev ++ " -> " ++ toString newRev ++ "\n"

/-- Lines 97-102: the document id the command works with. -/
def resolveID (metaID id : String) : Except Err String :=
  if metaID = "" then
    if id = "" then
      .error (.new "JSON missing _id field, and no document ID provided")
    else
      .ok id
  else
    .ok metaID

/-- State of the `update` action after line 102. -/
structure Loaded where
  coll : String
  id : String
  /-- the document as JSON text (`raw`, later `locJSON`) -/
  raw : String
  /-- decoded metadata, `meta.ID` already resolved -/
  meta : Meta
  deriving DecidableEq, Repr

/-- Lines 55-74: read the document file. -/
def readLocal {V D : Type} (env : Env V D) (coll id format tempfile : String) : Run String :=
  if tempfile ≠ "" then
    match env.readFile tempfile with
    | .error e => ([.readFile tempfile], .error (.wrap "failed to read tempfile" e))
    | .ok raw => ([.readFile tempfile], .ok raw)
  else
    let ext := if format = "yaml" then "yaml" else "json"
    let filePath := env.pathJoin ["docs", coll, id ++ "." ++ ext]
    match env.readFile filePath with
    | .error e => ([.readFile filePath], .error (.wrap "failed to read file" e))
    | .ok raw => ([.readFile filePath], .ok raw)

/-- Lines 76-86: convert YAML to JSON if needed. -/
def toJSON {V D : Type} (env : Env V D) (format raw : String) : Except Err String :=
  if format = "yaml" then
    match env.yamlUnmarshal raw with
    | .error e => .error (.wrap "invalid YAML" e)
    | .ok y =>
      match env.marshalIndent y with
      | .error e => .error e
      | .ok raw => .ok raw
  else
    .ok raw

/-- Lines 88-102: extract `_id` and `_modified`, resolve the document id. -/
def extractMeta {V D : Type} (env : Env V D) (raw id : String) : Except Err Meta :=
  match env.unmarshalMeta raw with
  | (_, some e) => .error (.wrap "invalid JSON" e)
  | (meta, none) =>
    match resolveID meta.ID id with
    | .error e => .error e
    | .ok resolved => .ok { meta with ID := resolved }

/-- Lines 42-102 of the action: arguments, document file, conversion, metadata. -/
def load {V D : Type} (env : Env V D) (cCtx : Ctx) : Run Loaded :=
  if cCtx.NArg < 1 ∨ (cCtx.NArg < 2 ∧ cCtx.tempfile = "") then
    ([], .error (.exit "collection and either document ID or --tempfile are required" 1))
  else
    let coll := cCtx.Get 0
    let id := cCtx.Get 1
    let format := env.toLower cCtx.format
    let tempfile := cCtx.tempfile
    if format ≠ "json" ∧ format ≠ "yaml" then
      ([], .error (.exit "invalid format: must be \x27json\x27 or \x27yaml\x27" 1))
    else
      match readLocal env coll id format tempfile with
      | (ev, .error e) => (ev, .error e)
      | (ev, .ok raw) =>
        match toJSON env format raw with
        | .error e => (ev, .error e)
        | .ok raw =>
          match extractMeta env raw id with
          | .error e => (ev, .error e)
          | .ok meta => (ev, .ok ⟨coll, id, raw, meta⟩)

/-- Lines 104-114 of the action: build the client, fetch the latest revision. -/
def fetch {V D : Type} (env : Env V D) (cCtx : Ctx) (l : Loaded) : Run (Client × Document) :=
  match getClient env cCtx with
  | .error e => ([], .error e)
  | .ok cl =>
    match GetDoc env cl l.coll l.meta.ID with
    | (ev, .error e) => (.callGetDoc l.coll l.meta.ID :: ev, .error e)
    | (ev, .ok svrDoc) => (.callGetDoc l.coll l.meta.ID :: ev, .ok (cl, svrDoc))

/-- Line 117: `svrJSON, _ := json.MarshalIndent(svrDoc.Raw, "", "  ")`, the error dropped. -/
def svrJSON {V D : Type} (env : Env V D) (svrDoc : Document) : String :=
  match env.marshalIndentRaw svrDoc.Raw with
  | .ok s => s
  | .error _ => ""

/-- Lines 116-171 of the action: diff, report, optimistic lock, dry-run or save. -/
def reconcile {V D : Type} (env : Env V D) (dryRun : Bool) (cl : Client) (l : Loaded)
    (svrDoc : Document) : Run Unit :=
  let coll := l.coll
  let meta := l.meta
  let locJSON := l.raw
  match env.compare (svrJSON env svrDoc) locJSON with
  | .error e => ([], .error e)
  | .ok d =>
    if !env.modified d then
      ([.stdout noChangeText], .ok ())
    else
      match env.jsonUnmarshal (svrJSON env svrDoc) with
      | .error e => ([], .error e)
      | .ok svrParsed =>
        match env.format svrParsed ⟨true, true⟩ d with
        | .error e => ([], .error e)
        | .ok ascii =>
          if svrDoc.Rev ≠ meta.Rev then
            (diffReport ascii, .error (.conflict svrDoc.Rev meta.Rev))
          else if dryRun then
            (diffReport ascii ++ [.stdout (dryRunText coll meta.ID meta.Rev)], .ok ())
          else
            match UpdateDoc env cl coll locJSON with
            | (ev, .error e) =>
              (diffReport ascii ++ .callUpdateDoc coll locJSON :: ev, .error e)
            | (ev, .ok newRev) =>
              (diffReport ascii ++ .callUpdateDoc coll locJSON :: ev
                ++ [.stdout (updatedText meta.ID meta.Rev newRev)], .ok ())

/-- The `Action` of `UpdateCmd` (lines 41-172). -/
def updateAction {V D : Type} (env : Env V D) (cCtx : Ctx) : Run Unit :=
  match load env cCtx with
  | (ev₁, .error e) => (ev₁, .error e)
  | (ev₁, .ok l) =>
    match fetch env cCtx l with
    | (ev₂, .error e) => (ev₁ ++ ev₂, .error e)
    | (ev₂, .ok (cl, svrDoc)) =>
      match reconcile env cCtx.dryRun cl l svrDoc with
      | (ev₃, r) => (ev₁ ++ ev₂ ++ ev₃, r)

/-! ## The four codec calls, modelled from the documentation of the libraries

`json.Unmarshal` into `interface{}`, `yaml.Marshal`, `yaml.Unmarshal` into
`interface{}` and `json.MarshalIndent` are outside the repository.  They are
modelled on the values the texts denote: a JSON text is the tree `JVal`, its
numbers being decimals; a YAML text is the tree `Yaml`, its scalars being
their characters and whether they are quoted; a decoded Go value is `Any`.
Spacing, indentation and escaping of the texts are not part of the model. -/

/-- A decimal number `± m × 10^e`: the value of a JSON number literal. -/
structure Decimal where
  neg : Bool
  m : Nat
  e : Int
  deriving DecidableEq, Repr

/-- Loop of `Decimal.norm`: move trailing decimal zeros of `m` into the exponent. -/
def stripZeros : Nat → Nat → Int → Nat × Int
  | 0, m, e => (m, e)
  | fuel + 1, m, e =>
    if m ≠ 0 ∧ m % 10 = 0 then stripZeros fuel (m / 10) (e + 1) else (m, e)

/-- Loop of `bitLen`. -/
def bitLenAux : Nat → Nat → Nat → Nat
  | 0, _, acc => acc
  | fuel + 1, n, acc => if n = 0 then acc else bitLenAux fuel (n / 2) (acc + 1)

/-- Number of binary digits of `n` (0 for 0). -/
def bitLen (n : Nat) : Nat := bitLenAux (n + 1) n 0

/-- Loop of `decLen`. -/
def decLenAux : Nat → Nat → Nat → Nat
  | 0, _, acc => acc
  | fuel + 1, n, acc => if n = 0 then acc else decLenAux fuel (n / 10) (acc + 1)

/-- Number of decimal digits of `n` (0 for 0). -/
def decLen (n : Nat) : Nat := decLenAux (n + 1) n 0

/-- The canonical form of a decimal: no trailing zero in `m`, and `+0 × 10^0`
for zero.  Two JSON numbers are the same value when their canonical forms are
equal. -/
def Decimal.norm (d : Decimal) : Decimal :=
  if d.m = 0 then ⟨false, 0, 0⟩
  else
    let r := stripZeros (decLen d.m) d.m d.e
    ⟨d.neg, r.1, r.2⟩

/-- A finite IEEE 754 binary64 number `± mant × 2^exp`: `2^52 ≤ mant < 2^53` and
`-1074 ≤ exp ≤ 971`, or `mant < 2^52` and `exp = -1074` (subnormal), or
`mant = 0` and `exp = 0` (zero). -/
structure F64 where
  neg : Bool
  mant : Nat
  exp : Int
  deriving DecidableEq, Repr

/-- Numerator and denominator of `a / (b × 2^e)`. -/
def scale2 (a b : Nat) (e : Int) : Nat × Nat :=
  if e ≥ 0 then (a, b * 2 ^ e.toNat) else (a * 2 ^ (-e).toNat, b)

/-- Numerator and denominator of `a / (b × 10^e)`. -/
def scale10 (a b : Nat) (e : Int) : Nat × Nat :=
  if e ≥ 0 then (a, b * 10 ^ e.toNat) else (a * 10 ^ (-e).toNat, b)

/-- The quotient `n / d` rounded to the nearest integer, ties to even. -/
def roundHalfEven (n d : Nat) : Nat :=
  let q := n / d
  let r := n % d
  if 2 * r > d ∨ (2 * r = d ∧ q % 2 = 1) then q + 1 else q

/-- The binary64 nearest to `a / b` (`b > 0`), ties to even, as mantissa and
exponent; `none` when it exceeds the largest finite binary64. -/
def roundRatio (a b : Nat) : Option (Nat × Int) :=
  if a = 0 then some (0, 0)
  else
    let e0 : Int := (bitLen a : Int) - (bitLen b : Int) - 52
    let s0 := scale2 a b e0
    let e1 : Int := if s0.1 / s0.2 < 2 ^ 52 then e0 - 1 else e0
    let e2 : Int := if e1 < -1074 then -1074 else e1
    let s := scale2 a b e2
    let q := roundHalfEven s.1 s.2
    if q = 0 then some (0, 0)
    else
      let r : Nat × Int := if q = 2 ^ 53 then (2 ^ 52, e2 + 1) else (q, e2)
      if r.2 > 971 then none else some r

/-- `strconv.ParseFloat(s, 64)` on the value of the literal `s`: "the nearest
floating-point number rounded using IEEE754 unbiased rounding"; `none` for a
value out of range. -/
def Decimal.toF64 (d : Decimal) : Option F64 :=
  let s := scale10 d.m 1 (-d.e)
  match roundRatio s.1 s.2 with
  | none => none
  | some (m, e) => some ⟨d.neg, m, e⟩

/-- Numerator and denominator of the value of a binary64. -/
def F64.ratio (f : F64) : Nat × Nat := scale2 f.mant 1 (-f.exp)

/-- Least `j` with `a × 10^j ≥ b`, searched below the fuel. -/
def leadShift : Nat → Nat → Nat → Nat → Nat
  | 0, _, _, j => j
  | fuel + 1, a, b, j => if a ≥ b then j else leadShift fuel (a * 10) b (j + 1)

/-- Position of the decimal point of a positive `a / b`: the `k` with
`10^(k-1) ≤ a / b < 10^k`. -/
def pointPos (a b : Nat) : Int :=
  if a ≥ b then (decLen (a / b) : Int) else 1 - (leadShift 400 a b 0 : Int)

/-- The two decimals of `nd` digits around the value of `f`, the nearer first. -/
def F64.candidates (f : F64) (nd : Nat) : List Decimal :=
  let ab := f.ratio
  let p : Int := pointPos ab.1 ab.2 - nd
  let s := scale10 ab.1 ab.2 p
  let lo := s.1 / s.2
  let first := roundHalfEven s.1 s.2
  let second := if first = lo then lo + 1 else lo
  [⟨f.neg, first, p⟩, ⟨f.neg, second, p⟩]

/-- Search of `F64.shortest`: the first decimal, by increasing number of digits
from `nd`, that reads back as `f`; after the fuel, the nearest decimal. -/
def shortestFrom (f : F64) : Nat → Nat → Decimal
  | 0, nd => (f.candidates nd).headD ⟨f.neg, 0, 0⟩
  | fuel + 1, nd =>
    match (f.candidates nd).find? (fun d => d.m ≠ 0 ∧ d.toF64 = some f) with
    | some d => d
    | none => shortestFrom f fuel (nd + 1)

/-- Digits of `strconv.FormatFloat(f, fmt, -1, 64)`: "the smallest number of
digits necessary to represent the value uniquely", which are 17 at most; in
canonical form. -/
def F64.shortest (f : F64) : Decimal :=
  if f.mant = 0 then ⟨f.neg, 0, 0⟩
  else
    let d := shortestFrom f 16 1
    let r := stripZeros (decLen d.m) d.m d.e
    ⟨d.neg, r.1, r.2⟩

/-- `n` characters `0`. -/
def zeros (n : Nat) : List Char := List.replicate n '0'

/-- Text of `strconv.FormatFloat(f, 'g', -1, 64)`, which `yaml.v3` writes for
a `float64`: the shortest digits, in `%e` form "if the exponent is less than
-4 or greater than or equal to the precision", 6 for the shortest digits,
and in `%f` form otherwise. -/
def F64.formatG (f : F64) : String :=
  let sign : List Char := if f.neg then ['-'] else []
  if f.mant = 0 then String.mk (sign ++ ['0'])
  else
    let d := f.shortest
    let ds := (Nat.repr d.m).data
    let nd := ds.length
    let dp : Int := (nd : Int) + d.e
    let x : Int := dp - 1
    if x < -4 ∨ x ≥ 6 then
      let frac : List Char := if nd > 1 then '.' :: ds.drop 1 else []
      let esign : Char := if x < 0 then '-' else '+'
      let ex := (Nat.repr x.natAbs).data
      let ex2 := if ex.length < 2 then '0' :: ex else ex
      String.mk (sign ++ ds.take 1 ++ frac ++ 'e' :: esign :: ex2)
    else if dp ≤ 0 then
      String.mk (sign ++ '0' :: '.' :: zeros (-dp).toNat ++ ds)
    else if (nd : Int) ≤ dp then
      String.mk (sign ++ ds ++ zeros (dp.toNat - nd))
    else
      String.mk (sign ++ ds.take dp.toNat ++ '.' :: ds.drop dp.toNat)

/-- A decoded Go value: what `json.Unmarshal` and `yaml.Unmarshal` store in an
`interface{}`. -/
inductive Any where
  | nil
  | bool (b : Bool)
  /-- `float64`; every JSON number decodes to one -/
  | float64 (f : F64)
  /-- `int`, `int64` or `uint64`, which `yaml.Unmarshal` stores for an integer scalar -/
  | int (n : Int)
  | string (s : String)
  /-- `[]interface{}` -/
  | slice (xs : List Any)
  /-- `map[string]interface{}`, as the list of its entries by increasing key -/
  | map (kvs : List (String × Any))
  /-- a value of another Go type, which `json.Marshal` refuses -/
  | other (goType : String)
  deriving Repr

/-- The value a JSON text denotes. -/
inductive JVal where
  | null
  | bool (b : Bool)
  | num (d : Decimal)
  | str (s : String)
  | arr (xs : List JVal)
  /-- an object, as the list of its members in the order of the text -/
  | obj (kvs : List (String × JVal))
  deriving Repr

/-- The nodes a YAML text denotes. -/
inductive Yaml where
  /-- an unquoted scalar: its type is resolved from its characters when read -/
  | plain (text : String)
  /-- a quoted scalar: a string -/
  | quoted (text : String)
  | seq (xs : List Yaml)
  | mapping (kvs : List (Yaml × Yaml))
  deriving Repr

/-- Order of Go strings: byte-wise, which on UTF-8 is the order of the code points. -/
def strLt : List Char → List Char → Bool
  | _, [] => false
  | [], _ :: _ => true
  | a :: as, b :: bs => a.toNat < b.toNat || (a.toNat == b.toNat && strLt as bs)

/-- `m[k] = v` on a map kept by increasing key, unless `k` is already there. -/
def mapInsertNew (k : String) (v : Any) : List (String × Any) → List (String × Any)
  | [] => [(k, v)]
  | (k', v') :: rest =>
    if k = k' then (k', v') :: rest
    else if strLt k.data k'.data then (k, v) :: (k', v') :: rest
    else (k', v') :: mapInsertNew k v rest

/-- `json.Unmarshal(raw, &data)` with `data interface{}`: "float64, for JSON
numbers", "[]interface{}, for JSON arrays", "map[string]interface{}, for JSON
objects"; of two members with the same name the later one stays. -/
def jsonUnmarshalAny : JVal → Except Err Any
  | .null => .ok .nil
  | .bool b => .ok (.bool b)
  | .num d =>
    match d.toF64 with
    | none => .error (.lib "json: cannot unmarshal number into Go value of type float64")
    | some f => .ok (.float64 f)
  | .str s => .ok (.string s)
  | .arr xs =>
    match elems xs with
    | .error e => .error e
    | .ok ys => .ok (.slice ys)
  | .obj kvs =>
    match members kvs with
    | .error e => .error e
    | .ok m => .ok (.map m)
where
  /-- Elements of an array, in order. -/
  elems : List JVal → Except Err (List Any)
    | [] => .ok []
    | x :: xs =>
      match jsonUnmarshalAny x with
      | .error e => .error e
      | .ok y =>
        match elems xs with
        | .error e => .error e
        | .ok ys => .ok (y :: ys)
  /-- Members of an object, into a map. -/
  members : List (String × JVal) → Except Err (List (String × Any))
    | [] => .ok []
    | (k, x) :: rest =>
      match jsonUnmarshalAny x with
      | .error e => .error e
      | .ok y =>
        match members rest with
        | .error e => .error e
        | .ok m => .ok (mapInsertNew k y m)

/-- Value of a run of decimal digits. -/
def digitsVal (cs : List Char) : Nat :=
  cs.foldl (fun n c => 10 * n + (c.toNat - 48)) 0

/-- Value of a run of octal digits. -/
def octalVal (cs : List Char) : Nat :=
  cs.foldl (fun n c => 8 * n + (c.toNat - 48)) 0

/-- A text cut along `[-+]?(\.[0-9]+|[0-9]+(\.[0-9]*)?)([eE][-+]?[0-9]+)?`. -/
structure NumText where
  neg : Bool
  intDigits : List Char
  /-- digits after the point, when there is a point -/
  fracDigits : Option (List Char)
  /-- exponent, when there is one -/
  exp : Option Int
  deriving Repr

/-- A leading sign taken off. -/
def takeSign : List Char → Bool × List Char
  | c :: cs => if c = '-' then (true, cs) else if c = '+' then (false, cs) else (false, c :: cs)
  | [] => (false, [])

/-- The characters after `e`: `[-+]?[0-9]+`. -/
def parseExp (cs : List Char) : Option Int :=
  let s := takeSign cs
  if s.2 ≠ [] ∧ s.2.all Char.isDigit then
    some (if s.1 then -(digitsVal s.2 : Int) else (digitsVal s.2 : Int))
  else none

/-- The float pattern of `yaml.v3` (`yamlStyleFloat`) applied to a text. -/
def parseNumText (cs : List Char) : Option NumText :=
  let s := takeSign cs
  let i := s.2.span Char.isDigit
  let fr : Option (List Char) × List Char :=
    match i.2 with
    | c :: r => if c = '.' then ((some (r.span Char.isDigit).1), (r.span Char.isDigit).2)
                else (none, c :: r)
    | [] => (none, [])
  let mantOk : Bool :=
    if i.1 = [] then (match fr.1 with | some fs => fs ≠ [] | none => false) else true
  let ex : Option (Option Int) :=
    match fr.2 with
    | [] => some none
    | c :: r => if c = 'e' ∨ c = 'E' then (parseExp r).map some else none
  if mantOk then ex.map (fun e => ⟨s.1, i.1, fr.1, e⟩) else none

/-- Value of a cut number text, as a decimal. -/
def NumText.decimal (t : NumText) : Decimal :=
  let fs := t.fracDigits.getD []
  ⟨t.neg, digitsVal (t.intDigits ++ fs), t.exp.getD 0 - (fs.length : Int)⟩

/-- `resolve` of `yaml.v3` on an unquoted scalar: the null and boolean words,
then `strconv.ParseInt(s, 0, 64)` and `strconv.ParseUint(s, 0, 64)`, then the
float pattern with `strconv.ParseFloat`, else a string.  Of base 0 the decimal
and the leading-zero octal forms are modelled; the texts with `_`, the
prefixes `0x`, `0o`, `0b`, the words `.inf` and `.nan`, timestamps and the
merge key are read as strings here. -/
def resolvePlain (text : String) : Any :=
  if text = "" ∨ text = "~" ∨ text = "null" ∨ text = "Null" ∨ text = "NULL" then .nil
  else if text = "true" ∨ text = "True" ∨ text = "TRUE" then .bool true
  else if text = "false" ∨ text = "False" ∨ text = "FALSE" then .bool false
  else
    match parseNumText text.data with
    | none => .string text
    | some t =>
      let asFloat : Any :=
        match t.decimal.toF64 with
        | some f => .float64 f
        | none => .string text
      if t.fracDigits.isNone ∧ t.exp.isNone then
        let octal : Bool := t.intDigits.length > 1 ∧ t.intDigits.head? = some '0'
        if octal ∧ ¬ t.intDigits.all (fun c => c.toNat < 56) then asFloat
        else
          let n := if octal then octalVal t.intDigits else digitsVal t.intDigits
          if t.neg then (if n ≤ 2 ^ 63 then .int (-(n : Int)) else asFloat)
          else if n < 2 ^ 63 then .int n
          else if n < 2 ^ 64 ∧ text.data.head? ≠ some '+' then .int n
          else asFloat
      else asFloat

/-- The words `yaml.v3` quotes although it reads them as strings (`isOldBool`). -/
def isOldBool (s : String) : Bool :=
  s = "y" ∨ s = "Y" ∨ s = "yes" ∨ s = "Yes" ∨ s = "YES" ∨ s = "on" ∨ s = "On" ∨ s = "ON"
    ∨ s = "n" ∨ s = "N" ∨ s = "no" ∨ s = "No" ∨ s = "NO" ∨ s = "off" ∨ s = "Off" ∨ s = "OFF"

/-- The scalar `yaml.v3` writes for a string: unquoted when the characters
would be read back as a string, quoted otherwise. -/
def yamlString (s : String) : Yaml :=
  match resolvePlain s with
  | .string _ => if isOldBool s then .quoted s else .plain s
  | _ => .quoted s

/-- `yaml.Marshal(data)` on a decoded value: null, the booleans and the
integers by their words, a `float64` by `strconv.FormatFloat(f, 'g', -1, 64)`,
a map by its entries in the order of the keys. -/
def yamlMarshalAny : Any → Except Err Yaml
  | .nil => .ok (.plain "null")
  | .bool b => .ok (.plain (if b then "true" else "false"))
  | .float64 f => .ok (.plain f.formatG)
  | .int n => .ok (.plain (toString n))
  | .string s => .ok (yamlString s)
  | .slice xs =>
    match items xs with
    | .error e => .error e
    | .ok ys => .ok (.seq ys)
  | .map kvs =>
    match entries kvs with
    | .error e => .error e
    | .ok ys => .ok (.mapping ys)
  | .other t => .error (.lib ("yaml: cannot marshal type: " ++ t))
where
  /-- Items of a sequence. -/
  items : List Any → Except Err (List Yaml)
    | [] => .ok []
    | x :: xs =>
      match yamlMarshalAny x with
      | .error e => .error e
      | .ok y =>
        match items xs with
        | .error e => .error e
        | .ok ys => .ok (y :: ys)
  /-- Entries of a mapping. -/
  entries : List (String × Any) → Except Err (List (Yaml × Yaml))
    | [] => .ok []
    | (k, x) :: rest =>
      match yamlMarshalAny x with
      | .error e => .error e
      | .ok y =>
        match entries rest with
        | .error e => .error e
        | .ok ys => .ok ((yamlString k, y) :: ys)

/-- The string a mapping key reads as, if it reads as a string. -/
def yamlKey : Yaml → Option String
  | .quoted s => some s
  | .plain s =>
    match resolvePlain s with
    | .string t => some t
    | _ => none
  | _ => none

/-- `m[k] = v` on a map kept by increasing key; `none` if `k` is already there. -/
def mapInsertUnique (k : String) (v : Any) : List (String × Any) → Option (List (String × Any))
  | [] => some [(k, v)]
  | (k', v') :: rest =>
    if k = k' then none
    else if strLt k.data k'.data then some ((k, v) :: (k', v') :: rest)
    else
      match mapInsertUnique k v rest with
      | none => none
      | some m => some ((k', v') :: m)

/-- `yaml.Unmarshal(raw, &y)` with `y interface{}`: scalars resolved by
`resolvePlain`, a sequence into `[]interface{}`, a mapping whose keys are all
strings into `map[string]interface{}`, another mapping into
`map[interface{}]interface{}`; a key met twice is an error. -/
def yamlUnmarshalAny : Yaml → Except Err Any
  | .plain s => .ok (resolvePlain s)
  | .quoted s => .ok (.string s)
  | .seq xs =>
    match items xs with
    | .error e => .error e
    | .ok ys => .ok (.slice ys)
  | .mapping kvs =>
    match entries kvs with
    | .error e => .error e
    | .ok none => .ok (.other "map[interface {}]interface {}")
    | .ok (some m) => .ok (.map m)
where
  /-- Items of a sequence. -/
  items : List Yaml → Except Err (List Any)
    | [] => .ok []
    | x :: xs =>
      match yamlUnmarshalAny x with
      | .error e => .error e
      | .ok y =>
        match items xs with
        | .error e => .error e
        | .ok ys => .ok (y :: ys)
  /-- Entries of a mapping, into a map; `none` when a key is not a string. -/
  entries : List (Yaml × Yaml) → Except Err (Option (List (String × Any)))
    | [] => .ok (some [])
    | (k, x) :: rest =>
      match yamlUnmarshalAny x with
      | .error e => .error e
      | .ok y =>
        match entries rest with
        | .error e => .error e
        | .ok none => .ok none
        | .ok (some m) =>
          match yamlKey k with
          | none => .ok none
          | some s =>
            match mapInsertUnique s y m with
            | none => .error (.lib ("yaml: mapping key \"" ++ s ++ "\" already defined"))
            | some m2 => .ok (some m2)

/-- `json.MarshalIndent(y, "", "  ")` on a decoded value: an integer by its
decimal digits, a `float64` by the shortest digits that read back as it, a
map by its entries "sorted by key"; a value of another type is refused. -/
def jsonMarshalAny : Any → Except Err JVal
  | .nil => .ok .null
  | .bool b => .ok (.bool b)
  | .float64 f => .ok (.num f.shortest.norm)
  | .int n => .ok (.num (Decimal.norm ⟨decide (n < 0), n.natAbs, 0⟩))
  | .string s => .ok (.str s)
  | .slice xs =>
    match elems xs with
    | .error e => .error e
    | .ok ys => .ok (.arr ys)
  | .map kvs =>
    match members kvs with
    | .error e => .error e
    | .ok ys => .ok (.obj ys)
  | .other t => .error (.lib ("json: unsupported type: " ++ t))
where
  /-- Elements of an array. -/
  elems : List Any → Except Err (List JVal)
    | [] => .ok []
    | x :: xs =>
      match jsonMarshalAny x with
      | .error e => .error e
      | .ok y =>
        match elems xs with
        | .error e => .error e
        | .ok ys => .ok (y :: ys)
  /-- Members of an object. -/
  members : List (String × Any) → Except Err (List (String × JVal))
    | [] => .ok []
    | (k, x) :: rest =>
      match jsonMarshalAny x with
      | .error e => .error e
      | .ok y =>
        match members rest with
        | .error e => .error e
        | .ok ys => .ok ((k, y) :: ys)

/-- The four codec calls as the libraries document them. -/
def goCodecs : Codecs JVal Yaml Any where
  jsonUnmarshal := jsonUnmarshalAny
  yamlMarshal := yamlMarshalAny
  yamlUnmarshal := yamlUnmarshalAny
  marshalIndent := jsonMarshalAny

/-- The document `{"_id":"a","_modified":3,"views":9223372036854775807}`. -/
def bigDoc : JVal :=
  .obj [("_id", .str "a"), ("_modified", .num ⟨false, 3, 0⟩),
    ("views", .num ⟨false, 9223372036854775807, 0⟩)]

/-- The YAML file written for `bigDoc`: `_id: a`, `_modified: 3`,
`views: 9.223372036854776e+18`. -/
def bigYaml : Yaml :=
  .mapping [(.plain "_id", .plain "a"), (.plain "_modified", .plain "3"),
    (.plain "views", .plain "9.223372036854776e+18")]

/-- The document `{"_id":"a","_modified":3,"views":9223372036854776000}`. -/
def bigDocBack : JVal :=
  .obj [("_id", .str "a"), ("_modified", .num ⟨false, 3, 0⟩),
    ("views", .num ⟨false, 9223372036854776, 3⟩)]

/-- The document `{"_id":"a","_modified":3,"title":"Old","tags":["x","3",true,null],
"ratio":0.1,"views":123456}`, with its members by increasing name. -/
def plainDoc : JVal :=
  .obj [("_id", .str "a"), ("_modified", .num ⟨false, 3, 0⟩),
    ("ratio", .num ⟨false, 1, -1⟩),
    ("tags", .arr [.str "x", .str "3", .bool true, .null]),
    ("title", .str "Old"), ("views", .num ⟨false, 123456, 0⟩)]

/-! ## A finite description of the collaborators -/

/-- What the collaborators answer in one run, as finite data: the documents are
JSON texts, a decoded value is kept as its text, a diff as its list of changed
paths. -/
structure Scenario where
  /-- files on disk: path and content -/
  files : List (String × String)
  /-- documents, with what the metadata decoder makes of each: the struct it
  leaves and its error -/
  metas : List (String × (Meta × Option Err))
  /-- entries the store answers to a get request -/
  entries : List String
  /-- changed paths the differ finds between the entry and the local document -/
  deltas : List String
  /-- answer of the formatter -/
  report : Except Err String
  /-- revision the store answers to a save request -/
  savedRev : Int

/-- The collaborators of a scenario. -/
def Scenario.env (s : Scenario) : Env String (List String) where
  urlParse := fun u => .ok u
  newRequest := fun _ _ _ _ => none
  roundTrip := fun _ _ _ _ => .ok ⟨200, ""⟩
  decodeNames := fun _ => .ok []
  decodeEntries := fun _ => .ok s.entries
  decodeSaved := fun _ => .ok s.savedRev
  unmarshalMeta := fun doc =>
    match s.metas.lookup doc with
    | some r => r
    | none => (Meta.zero, some (.lib "unexpected end of JSON input"))
  mkdirAll := fun _ => none
  writeFile := fun _ _ => none
  readFile := fun p =>
    match s.files.lookup p with
    | some content => .ok content
    | none => .error (.lib ("open " ++ p ++ ": no such file or directory"))
  pathJoin := fun elems => "/".intercalate elems
  toLower := fun t => String.mk (t.data.map Char.toLower)
  jsonIndent := fun raw => .ok raw
  yamlMarshal := fun data => .ok data
  yamlUnmarshal := fun raw => .ok raw
  marshalIndent := fun y => .ok y
  marshalIndentRaw := fun raw => .ok raw
  jsonUnmarshal := fun raw => .ok raw
  compare := fun _ _ => .ok s.deltas
  modified := fun d => !d.isEmpty
  format := fun _ _ _ => s.report

/-- Configuration with one instance `prod`. -/
def demoConfig : Config where
  APIKey := "secret"
  Instances := fun a => if a = "prod" then some ⟨"https://cms.example", ""⟩ else none

/-- Command line `cockcli -i prod update [--dry-run] posts a`. -/
def demoCtx (dryRun : Bool) : Ctx where
  args := ["posts", "a"]
  dryRun := dryRun
  format := "json"
  tempfile := ""
  output := ""
  url := ""
  token := ""
  aliasName := "prod"
  config := demoConfig

/-- Remote entry `{"_id":"a","_modified":3,"title":"Old"}`. -/
def remoteOld : String := "\x7b\"_id\":\"a\",\"_modified\":3,\"title\":\"Old\"\x7d"

/-- Local edit `{"_id":"a","_modified":3,"title":"New"}`. -/
def localNew : String := "\x7b\"_id\":\"a\",\"_modified\":3,\"title\":\"New\"\x7d"

/-- Local edit `{"_id":"a","_modified":2,"title":"New"}`, based on a stale revision. -/
def localStale : String := "\x7b\"_id\":\"a\",\"_modified\":2,\"title\":\"New\"\x7d"

/-- Remote entry `{"_id":"a","_modified":3.0,"title":"Old"}`: its revision is
not an integer literal, so `GetDoc` reads revision 0 from it. -/
def remoteFrac : String := "\x7b\"_id\":\"a\",\"_modified\":3.0,\"title\":\"Old\"\x7d"

/-- Local copy `{"title":"Old","_modified":3,"_id":"a"}`: the content of
`remoteFrac` in another key order. -/
def localSame : String := "\x7b\"title\":\"Old\",\"_modified\":3,\"_id\":\"a\"\x7d"

/-- Local edit `{"_modified":3,"title":"New"}` without `_id`. -/
def localNoID : String := "\x7b\"_modified\":3,\"title\":\"New\"\x7d"

/-- Report of the formatter for the change of `title`, coloring on. -/
def titleReport : String :=
  " \x7b\n   \"_id\": \"a\",\n   \"_modified\": 3,\n\x1b[30;41m-  \"title\": \"Old\"\x1b[0m\n"
    ++ "\x1b[30;42m+  \"title\": \"New\"\x1b[0m\n \x7d\n"

/-- Local edit `{"_id":"a","title":"New"}` of a new document, without revision. -/
def localFresh : String := "\x7b\"_id\":\"a\",\"title\":\"New\"\x7d"

/-- Local edit `{"_id":"a","_modified":"3","title":"New"}`: the revision is a
JSON string, which the decoder refuses for the `int64` field after it has
stored `_id`. -/
def localTextRev : String :=
  "\x7b\"_id\":\"a\",\"_modified\":\"3\",\"title\":\"New\"\x7d"

/-- Error of `AsciiFormatter.Format` for a left side that is neither a JSON
object nor an array. -/
def formatError : Err :=
  .lib "expected map[string]interface\x7b\x7d or []interface\x7b\x7d, got <nil>"

/-- Report of the formatter for the change of `_modified` from 3 to 2 and of
`title`, coloring on. -/
def staleReport : String :=
  " \x7b\n   \"_id\": \"a\",\n"
    ++ "\x1b[30;41m-  \"_modified\": 3,\x1b[0m\n\x1b[30;42m+  \"_modified\": 2,\x1b[0m\n"
    ++ "\x1b[30;41m-  \"title\": \"Old\"\x1b[0m\n"
    ++ "\x1b[30;42m+  \"title\": \"New\"\x1b[0m\n \x7d\n"

/-- Report of the formatter for the change of `_modified` from 3 to "3" and of
`title`, coloring on. -/
def textRevReport : String :=
  " \x7b\n   \"_id\": \"a\",\n"
    ++ "\x1b[30;41m-  \"_modified\": 3,\x1b[0m\n"
    ++ "\x1b[30;42m+  \"_modified\": \"3\",\x1b[0m\n"
    ++ "\x1b[30;41m-  \"title\": \"Old\"\x1b[0m\n"
    ++ "\x1b[30;42m+  \"title\": \"New\"\x1b[0m\n \x7d\n"

/-- Report of the formatter when `_id` was removed and `title` changed, coloring on. -/
def noIDReport : String :=
  " \x7b\n\x1b[30;41m-  \"_id\": \"a\",\x1b[0m\n   \"_modified\": 3,\n"
    ++ "\x1b[30;41m-  \"title\": \"Old\"\x1b[0m\n"
    ++ "\x1b[30;42m+  \"title\": \"New\"\x1b[0m\n \x7d\n"

/-- An unedited copy: the differ finds no change, while the revisions read
from the two documents are 0 (remote) and 3 (local). -/
def noopScenario : Scenario where
  files := [("docs/posts/a.json", localSame)]
  metas := [(localSame, (⟨"a", 3⟩, none)), (remoteFrac, (⟨"a", 0⟩, some (.lib
      "json: cannot unmarshal number 3.0 into Go struct field ._modified of type int64")))]
  entries := [remoteFrac]
  deltas := []
  report := .ok ""
  savedRev := 4

/-- The title was edited on top of the current revision 3. -/
def editScenario : Scenario where
  files := [("docs/posts/a.json", localNew)]
  metas := [(localNew, (⟨"a", 3⟩, none)), (remoteOld, (⟨"a", 3⟩, none))]
  entries := [remoteOld]
  deltas := ["title"]
  report := .ok titleReport
  savedRev := 4

/-- The title was edited on top of revision 2, the store is at revision 3. -/
def staleScenario : Scenario where
  files := [("docs/posts/a.json", localStale)]
  metas := [(localStale, (⟨"a", 2⟩, none)), (remoteOld, (⟨"a", 3⟩, none))]
  entries := [remoteOld]
  deltas := ["_modified", "title"]
  report := .ok staleReport
  savedRev := 4

/-- The edited file carries no `_id`; the id comes from the command line. -/
def noIDScenario : Scenario where
  files := [("docs/posts/a.json", localNoID)]
  metas := [(localNoID, (⟨"", 3⟩, none)), (remoteOld, (⟨"a", 3⟩, none))]
  entries := [remoteOld]
  deltas := ["_id", "title"]
  report := .ok noIDReport
  savedRev := 4

/-- The store answers the entry `null` for the id.  `GetDoc` reads the zero
metadata from it; the differ, which decodes both sides into maps, finds every
field of the local document added; the formatter refuses the left side. -/
def nullScenario : Scenario where
  files := [("docs/posts/a.json", localNew)]
  metas := [(localNew, (⟨"a", 3⟩, none)), ("null", (⟨"", 0⟩, none))]
  entries := ["null"]
  deltas := ["_id", "_modified", "title"]
  report := .error formatError
  savedRev := 1

/-- As `nullScenario`, the local document carrying no revision. -/
def nullFreshScenario : Scenario where
  files := [("docs/posts/a.json", localFresh)]
  metas := [(localFresh, (⟨"a", 0⟩, none)), ("null", (⟨"", 0⟩, none))]
  entries := ["null"]
  deltas := ["_id", "title"]
  report := .error formatError
  savedRev := 1

/-- The local document has the string `"3"` as revision. -/
def textRevScenario : Scenario where
  files := [("docs/posts/a.json", localTextRev)]
  metas := [(localTextRev, (⟨"a", 0⟩, some (.lib
    "json: cannot unmarshal string into Go struct field ._modified of type int64")))]
  entries := [remoteOld]
  deltas := ["_modified", "title"]
  report := .ok textRevReport
  savedRev := 4

/-- Report of the formatter for the change of `title` in a document that also
has the unchanged field `"slug": "my-post"`, coloring on. -/
def slugReport : String :=
  " \x7b\n   \"_id\": \"a\",\n   \"_modified\": 3,\n   \"slug\": \"my-post\",\n"
    ++ "\x1b[30;41m-  \"title\": \"Old\"\x1b[0m\n"
    ++ "\x1b[30;42m+  \"title\": \"New\"\x1b[0m\n \x7d\n"

/-- Follows the claim's words, for comparison with `lineShown`: a line the
formatter marks as changed, that is one starting with `+` or `-`, the marker
coming after the colour escape sequence when coloring is on. -/
def markedChanged (line : String) : Bool :=
  "+".data.isPrefixOf line.data || "-".data.isPrefixOf line.data
    || "\x1b[30;42m+".data.isPrefixOf line.data || "\x1b[30;41m-".data.isPrefixOf line.data

/-! ## Shape of the effects of each phase -/

theorem apiRequest_events {V D α : Type} (env : Env V D) (c : Client) (path : String)
    (body : Option Payload) (v : Option (String → Except Err α)) (out : α) :
    (apiRequest env c path body v out).1 = [] ∨
      (apiRequest env c path body v out).1
        = [.http (if body.isSome then .post else .get) path body] := by
  simp only [apiRequest]
  split
  · left
    split <;> rfl
  · right
    split
    · rfl
    · split
      · rfl
      · split
        · rfl
        · split <;> rfl

theorem readLocal_events {V D : Type} (env : Env V D) (coll id format tempfile : String) :
    ∀ e ∈ (readLocal env coll id format tempfile).1, ∃ p, e = .readFile p := by
  intro e he
  simp only [readLocal] at he
  split at he
  · split at he <;> simp at he <;> exact ⟨_, he⟩
  · split at he <;> simp at he <;> exact ⟨_, he⟩

theorem load_events {V D : Type} (env : Env V D) (cCtx : Ctx) :
    ∀ e ∈ (load env cCtx).1, ∃ p, e = .readFile p := by
  intro e he
  simp only [load] at he
  split at he
  · simp at he
  · split at he
    · simp at he
    · have hr := readLocal_events env (cCtx.Get 0) (cCtx.Get 1) (env.toLower cCtx.format)
        cCtx.tempfile
      split at he
      · rename_i ev err heq
        rw [heq] at hr
        exact hr e he
      · rename_i ev raw heq
        rw [heq] at hr
        split at he
        · exact hr e he
        · split at he <;> exact hr e he

theorem GetDoc_events {V D : Type} (env : Env V D) (c : Client) (coll id : String) :
    ∀ e ∈ (GetDoc env c coll id).1, e.isUpdateDocCall = false := by
  intro e he
  have hap := apiRequest_events env c ("/api/collections/get/" ++ coll)
    (some (.byID id 1)) (some env.decodeEntries) []
  simp only [GetDoc] at he
  split at he
  · rename_i ev err heq
    rw [heq] at hap
    rcases hap with h | h <;> simp at h <;> subst h <;> simp at he
    subst he; rfl
  · rename_i ev entries heq
    rw [heq] at hap
    have hev : ∀ x ∈ ev, x.isUpdateDocCall = false := by
      intro x hx
      rcases hap with h | h <;> simp at h <;> subst h <;> simp at hx
      subst hx; rfl
    split at he
    · exact hev e he
    · split at he
      · simp at he
        rcases he with h | h
        · exact hev e h
        · subst h; rfl
      · split at he <;>
        · simp at he
          rcases he with h | h | h
          · exact hev e h
          · subst h; rfl
          · subst h; rfl

theorem fetch_events {V D : Type} (env : Env V D) (cCtx : Ctx) (l : Loaded) :
    ∀ e ∈ (fetch env cCtx l).1, e.isUpdateDocCall = false := by
  intro e he
  simp only [fetch] at he
  split at he
  · simp at he
  · rename_i cl hcl
    have hg := GetDoc_events env cl l.coll l.meta.ID
    split at he <;>
    · rename_i ev x heq
      rw [heq] at hg
      simp at he
      rcases he with h | h
      · subst h; rfl
      · exact hg e h

theorem diffReport_events (ascii : String) :
    ∀ e ∈ diffReport ascii, e.isUpdateDocCall = false := by
  intro e he
  unfold diffReport at he
  simp at he
  rcases he with h | ⟨a, _, h⟩
  · subst h; rfl
  · subst h; rfl

/-- Once the local document is loaded and the remote one fetched, the action
is the third phase run after the effects of the first two. -/
theorem updateAction_reach {V D : Type} (env : Env V D) (cCtx : Ctx) (ev₁ ev₂ : List Event)
    (l : Loaded) (cl : Client) (svrDoc : Document)
    (hload : load env cCtx = (ev₁, .ok l))
    (hfetch : fetch env cCtx l = (ev₂, .ok (cl, svrDoc))) :
    updateAction env cCtx
      = (ev₁ ++ ev₂ ++ (reconcile env cCtx.dryRun cl l svrDoc).1,
          (reconcile env cCtx.dryRun cl l svrDoc).2) := by
  simp only [updateAction, hload, hfetch]

/-- The effects of the first two phases never include a call of `UpdateDoc`. -/
theorem phases_no_update {V D : Type} (env : Env V D) (cCtx : Ctx) (ev₁ ev₂ : List Event)
    (l : Loaded) (cl : Client) (svrDoc : Document)
    (hload : load env cCtx = (ev₁, .ok l))
    (hfetch : fetch env cCtx l = (ev₂, .ok (cl, svrDoc))) :
    ∀ e ∈ ev₁ ++ ev₂, e.isUpdateDocCall = false := by
  intro e he
  rcases List.mem_append.mp he with h | h
  · have := load_events env cCtx e (by rw [hload]; exact h)
    obtain ⟨p, rfl⟩ := this
    rfl
  · exact fetch_events env cCtx l e (by rw [hfetch]; exact h)

/-- C1, no-op immunity.  Whenever the local document was loaded, the remote
one fetched, and the differ reports the pair as not modified, the update
action prints the no-change message and returns nil, for every dry-run flag
and whatever the two revisions are (they can be replaced by any pair without
changing the outcome); no call of `UpdateDoc` is among its effects. -/
theorem noop_immunity {V D : Type} (env : Env V D) (cCtx : Ctx) (ev₁ ev₂ : List Event)
    (l : Loaded) (cl : Client) (svrDoc : Document) (d : D)
    (hload : load env cCtx = (ev₁, .ok l))
    (hfetch : fetch env cCtx l = (ev₂, .ok (cl, svrDoc)))
    (hcmp : env.compare (svrJSON env svrDoc) l.raw = .ok d)
    (hmod : env.modified d = false) :
    updateAction env cCtx = (ev₁ ++ ev₂ ++ [.stdout noChangeText], .ok ()) ∧
    (∀ e ∈ (updateAction env cCtx).1, e.isUpdateDocCall = false) ∧
    (∀ (dryRun : Bool) (remoteRev localRev : Int),
      reconcile env dryRun cl { l with meta := { l.meta with Rev := localRev } }
        { svrDoc with Rev := remoteRev } = ([.stdout noChangeText], .ok ())) := by
  have hrec : ∀ (dryRun : Bool) (remoteRev localRev : Int),
      reconcile env dryRun cl { l with meta := { l.meta with Rev := localRev } }
        { svrDoc with Rev := remoteRev } = ([.stdout noChangeText], .ok ()) := by
    intro dryRun remoteRev localRev
    have hj : svrJSON env { svrDoc with Rev := remoteRev } = svrJSON env svrDoc := rfl
    simp only [reconcile, hj, hcmp, hmod]
    rfl
  have hrec0 : reconcile env cCtx.dryRun cl l svrDoc = ([.stdout noChangeText], .ok ()) := by
    simp only [reconcile, hcmp, hmod]
    rfl
  have hrun := updateAction_reach env cCtx ev₁ ev₂ l cl svrDoc hload hfetch
  rw [hrec0] at hrun
  refine ⟨hrun, ?_, hrec⟩
  intro e he
  rw [hrun] at he
  rcases List.mem_append.mp he with h | h
  · exact phases_no_update env cCtx ev₁ ev₂ l cl svrDoc hload hfetch e h
  · simp at h
    subst h
    rfl

/-- Witness of C1: an unedited copy whose revision differs from the remote one. -/
theorem noop_immunity_witness :
    load noopScenario.env (demoCtx false)
        = ([.readFile "docs/posts/a.json"], .ok ⟨"posts", "a", localSame, ⟨"a", 3⟩⟩) ∧
      (⟨"a", 0, remoteFrac, "docs/posts-a.json"⟩ : Document).Rev ≠ (⟨"a", 3⟩ : Meta).Rev ∧
      updateAction noopScenario.env (demoCtx false)
        = ([.readFile "docs/posts/a.json"]
            ++ [.callGetDoc "posts" "a",
                .http .post "/api/collections/get/posts" (some (.byID "a" 1)),
                .mkdirAll "docs", .writeFile "docs/posts-a.json" remoteFrac]
            ++ [.stdout noChangeText], .ok ()) :=
  ⟨rfl, by decide,
    (noop_immunity noopScenario.env (demoCtx false) _ _
      ⟨"posts", "a", localSame, ⟨"a", 3⟩⟩ ⟨"https://cms.example", "secret"⟩
      ⟨"a", 0, remoteFrac, "docs/posts-a.json"⟩ [] rfl rfl rfl rfl).1⟩

/-- The third phase once the diff is non-empty and its report was rendered:
lines 155-171. -/
theorem reconcile_rendered {V D : Type} (env : Env V D) (dryRun : Bool) (cl : Client)
    (l : Loaded) (svrDoc : Document) (d : D) (p : V) (ascii : String)
    (hcmp : env.compare (svrJSON env svrDoc) l.raw = .ok d)
    (hmod : env.modified d = true)
    (hparse : env.jsonUnmarshal (svrJSON env svrDoc) = .ok p)
    (hfmt : env.format p ⟨true, true⟩ d = .ok ascii) :
    reconcile env dryRun cl l svrDoc =
      if svrDoc.Rev ≠ l.meta.Rev then
        (diffReport ascii, .error (.conflict svrDoc.Rev l.meta.Rev))
      else if dryRun then
        (diffReport ascii ++ [.stdout (dryRunText l.coll l.meta.ID l.meta.Rev)], .ok ())
      else
        match UpdateDoc env cl l.coll l.raw with
        | (ev, .error e) =>
          (diffReport ascii ++ .callUpdateDoc l.coll l.raw :: ev, .error e)
        | (ev, .ok newRev) =>
          (diffReport ascii ++ .callUpdateDoc l.coll l.raw :: ev
            ++ [.stdout (updatedText l.meta.ID l.meta.Rev newRev)], .ok ()) := by
  simp only [reconcile, hcmp, hmod, hparse, hfmt]
  rfl

/-- With a non-empty diff, the third phase calls `UpdateDoc` only if the
revisions are equal and dry-run is unset. -/
theorem reconcile_no_update {V D : Type} (env : Env V D) (dryRun : Bool) (cl : Client)
    (l : Loaded) (svrDoc : Document)
    (h : svrDoc.Rev ≠ l.meta.Rev ∨ dryRun = true) :
    ∀ e ∈ (reconcile env dryRun cl l svrDoc).1, e.isUpdateDocCall = false := by
  intro e he
  simp only [reconcile] at he
  split at he
  · simp at he
  · split at he
    · simp at he
      subst he
      rfl
    · split at he
      · simp at he
      · split at he
        · simp at he
        · rename_i ascii _
          split at he
          · exact diffReport_events ascii e he
          · split at he
            · rcases List.mem_append.mp he with h1 | h1
              · exact diffReport_events ascii e h1
              · simp at h1
                subst h1
                rfl
            · rename_i hrev hdry
              rcases h with h | h
              · exact absurd h hrev
              · exact absurd h hdry

theorem UpdateDoc_events {V D : Type} (env : Env V D) (c : Client) (coll docRaw : String) :
    (UpdateDoc env c coll docRaw).1 = [] ∨
      (UpdateDoc env c coll docRaw).1
        = [.http .post ("/api/collections/save/" ++ coll) (some (.data docRaw))] := by
  have hap := apiRequest_events env c ("/api/collections/save/" ++ coll)
    (some (.data docRaw)) (some env.decodeSaved) 0
  simp only [UpdateDoc]
  split
  · left; rfl
  · split
    · left; rfl
    · split <;>
      · rename_i ev x heq
        rw [heq] at hap
        exact hap

/-- Counterexample to C2 as stated.  The store answers the entry `null`, read
as revision 0, while the local document is based on revision 3; the differ
reports the pair as modified, the formatter fails on the left side, and the
action returns the error of the formatter, not a conflict error. -/
theorem conflict_needs_rendered_report :
    load nullScenario.env (demoCtx false)
        = ([.readFile "docs/posts/a.json"], .ok ⟨"posts", "a", localNew, ⟨"a", 3⟩⟩) ∧
      fetch nullScenario.env (demoCtx false) ⟨"posts", "a", localNew, ⟨"a", 3⟩⟩
        = ([.callGetDoc "posts" "a",
            .http .post "/api/collections/get/posts" (some (.byID "a" 1)),
            .mkdirAll "docs", .writeFile "docs/posts-.json" "null"],
          .ok (⟨"https://cms.example", "secret"⟩, ⟨"", 0, "null", "docs/posts-.json"⟩)) ∧
      nullScenario.env.compare "null" localNew = .ok ["_id", "_modified", "title"] ∧
      nullScenario.env.modified ["_id", "_modified", "title"] = true ∧
      (3 : Int) ≠ 0 ∧
      updateAction nullScenario.env (demoCtx false)
        = ([.readFile "docs/posts/a.json", .callGetDoc "posts" "a",
            .http .post "/api/collections/get/posts" (some (.byID "a" 1)),
            .mkdirAll "docs", .writeFile "docs/posts-.json" "null"],
          .error formatError) ∧
      formatError ≠ .conflict 0 3 :=
  ⟨rfl, rfl, rfl, rfl, by decide, rfl, by decide⟩

/-- C2 as amended, lock enforcement.  Whenever the local document was loaded,
the remote one fetched, the differ reports the pair as modified and the revision embedded
in the local document differs from the fetched one, no call of `UpdateDoc` is
among the effects of the update action, whatever the dry-run flag; and once
the diff report was rendered the action prints it and returns the conflict
error carrying the server revision and the local revision. -/
theorem lock_enforcement {V D : Type} (env : Env V D) (cCtx : Ctx) (ev₁ ev₂ : List Event)
    (l : Loaded) (cl : Client) (svrDoc : Document) (d : D)
    (hload : load env cCtx = (ev₁, .ok l))
    (hfetch : fetch env cCtx l = (ev₂, .ok (cl, svrDoc)))
    (hcmp : env.compare (svrJSON env svrDoc) l.raw = .ok d)
    (hmod : env.modified d = true)
    (hrev : l.meta.Rev ≠ svrDoc.Rev) :
    (∀ e ∈ (updateAction env cCtx).1, e.isUpdateDocCall = false) ∧
    (∀ (p : V) (ascii : String),
      env.jsonUnmarshal (svrJSON env svrDoc) = .ok p →
      env.format p ⟨true, true⟩ d = .ok ascii →
      updateAction env cCtx
        = (ev₁ ++ ev₂ ++ diffReport ascii, .error (.conflict svrDoc.Rev l.meta.Rev)) ∧
      (Err.conflict svrDoc.Rev l.meta.Rev).text
        = "document changed on server (server rev " ++ toString svrDoc.Rev
            ++ " ≠ local rev " ++ toString l.meta.Rev ++ ")") := by
  have hrun := updateAction_reach env cCtx ev₁ ev₂ l cl svrDoc hload hfetch
  constructor
  · intro e he
    rw [hrun] at he
    rcases List.mem_append.mp he with h | h
    · exact phases_no_update env cCtx ev₁ ev₂ l cl svrDoc hload hfetch e h
    · exact reconcile_no_update env cCtx.dryRun cl l svrDoc (Or.inl (Ne.symm hrev)) e h
  · intro p ascii hparse hfmt
    refine ⟨?_, rfl⟩
    rw [hrun, reconcile_rendered env cCtx.dryRun cl l svrDoc d p ascii hcmp hmod hparse hfmt]
    simp [Ne.symm hrev]

/-- Witness of C2: the title edited on top of revision 2 while the store is at 3. -/
theorem lock_enforcement_witness :
    updateAction staleScenario.env (demoCtx false)
      = ([.readFile "docs/posts/a.json"]
          ++ [.callGetDoc "posts" "a",
              .http .post "/api/collections/get/posts" (some (.byID "a" 1)),
              .mkdirAll "docs", .writeFile "docs/posts-a.json" remoteOld]
          ++ diffReport staleReport, .error (.conflict 3 2)) :=
  ((lock_enforcement staleScenario.env (demoCtx false) _ _
      ⟨"posts", "a", localStale, ⟨"a", 2⟩⟩ ⟨"https://cms.example", "secret"⟩
      ⟨"a", 3, remoteOld, "docs/posts-a.json"⟩ ["_modified", "title"] rfl rfl rfl rfl
      (by decide)).2 remoteOld staleReport rfl rfl).1

/-- Counterexample to C3 as stated.  The store answers the entry `null`, read
as revision 0, and the local document carries revision 0; with `--dry-run`
the differ reports the pair as modified, the formatter fails on the left
side, and the action returns the error of the formatter without printing a
plan. -/
theorem plan_needs_rendered_report :
    load nullFreshScenario.env (demoCtx true)
        = ([.readFile "docs/posts/a.json"], .ok ⟨"posts", "a", localFresh, ⟨"a", 0⟩⟩) ∧
      fetch nullFreshScenario.env (demoCtx true) ⟨"posts", "a", localFresh, ⟨"a", 0⟩⟩
        = ([.callGetDoc "posts" "a",
            .http .post "/api/collections/get/posts" (some (.byID "a" 1)),
            .mkdirAll "docs", .writeFile "docs/posts-.json" "null"],
          .ok (⟨"https://cms.example", "secret"⟩, ⟨"", 0, "null", "docs/posts-.json"⟩)) ∧
      nullFreshScenario.env.compare "null" localFresh = .ok ["_id", "title"] ∧
      nullFreshScenario.env.modified ["_id", "title"] = true ∧
      (demoCtx true).dryRun = true ∧
      updateAction nullFreshScenario.env (demoCtx true)
        = ([.readFile "docs/posts/a.json", .callGetDoc "posts" "a",
            .http .post "/api/collections/get/posts" (some (.byID "a" 1)),
            .mkdirAll "docs", .writeFile "docs/posts-.json" "null"],
          .error formatError) :=
  ⟨rfl, rfl, rfl, rfl, rfl, rfl⟩

/-- C3 as amended, dry-run purity.  Whenever the local document was loaded,
the remote one fetched, the differ reports the pair as modified, the two revisions are
equal and dry-run is set, no call of `UpdateDoc` is among the effects of the
update action; and once the diff report was rendered the action prints it,
then the plan naming the collection, the document id, the revision and the
save endpoint, and returns nil. -/
theorem dry_run_purity {V D : Type} (env : Env V D) (cCtx : Ctx) (ev₁ ev₂ : List Event)
    (l : Loaded) (cl : Client) (svrDoc : Document) (d : D)
    (hload : load env cCtx = (ev₁, .ok l))
    (hfetch : fetch env cCtx l = (ev₂, .ok (cl, svrDoc)))
    (hcmp : env.compare (svrJSON env svrDoc) l.raw = .ok d)
    (hmod : env.modified d = true)
    (hrev : l.meta.Rev = svrDoc.Rev)
    (hdry : cCtx.dryRun = true) :
    (∀ e ∈ (updateAction env cCtx).1, e.isUpdateDocCall = false) ∧
    (∀ (p : V) (ascii : String),
      env.jsonUnmarshal (svrJSON env svrDoc) = .ok p →
      env.format p ⟨true, true⟩ d = .ok ascii →
      updateAction env cCtx
        = (ev₁ ++ ev₂ ++ (diffReport ascii
            ++ [.stdout (dryRunText l.coll l.meta.ID l.meta.Rev)]), .ok ()) ∧
      dryRunText l.coll l.meta.ID l.meta.Rev
        = "[DRY‑RUN] Would update collection \x27" ++ l.coll ++ "\x27 document \x27"
            ++ l.meta.ID ++ "\x27 (rev " ++ toString l.meta.Rev
            ++ ") via /api/collections/save/" ++ l.coll ++ "\n") := by
  have hrun := updateAction_reach env cCtx ev₁ ev₂ l cl svrDoc hload hfetch
  constructor
  · intro e he
    rw [hrun] at he
    rcases List.mem_append.mp he with h | h
    · exact phases_no_update env cCtx ev₁ ev₂ l cl svrDoc hload hfetch e h
    · exact reconcile_no_update env cCtx.dryRun cl l svrDoc (Or.inr hdry) e h
  · intro p ascii hparse hfmt
    refine ⟨?_, rfl⟩
    rw [hrun, reconcile_rendered env cCtx.dryRun cl l svrDoc d p ascii hcmp hmod hparse hfmt]
    simp [hrev, hdry]

/-- Witness of C3: the title edited on top of the current revision, `--dry-run`. -/
theorem dry_run_purity_witness :
    updateAction editScenario.env (demoCtx true)
      = ([.readFile "docs/posts/a.json"]
          ++ [.callGetDoc "posts" "a",
              .http .post "/api/collections/get/posts" (some (.byID "a" 1)),
              .mkdirAll "docs", .writeFile "docs/posts-a.json" remoteOld]
          ++ (diffReport titleReport ++ [.stdout (dryRunText "posts" "a" 3)]), .ok ()) :=
  ((dry_run_purity editScenario.env (demoCtx true) _ _
      ⟨"posts", "a", localNew, ⟨"a", 3⟩⟩ ⟨"https://cms.example", "secret"⟩
      ⟨"a", 3, remoteOld, "docs/posts-a.json"⟩ ["title"] rfl rfl rfl rfl rfl rfl).2
    remoteOld titleReport rfl rfl).1

theorem filter_update_nil (evs : List Event) (h : ∀ e ∈ evs, e.isUpdateDocCall = false) :
    evs.filter Event.isUpdateDocCall = [] := by
  rw [List.filter_eq_nil_iff]
  intro e he
  simp [h e he]

theorem UpdateDoc_no_update {V D : Type} (env : Env V D) (c : Client) (coll docRaw : String) :
    ∀ e ∈ (UpdateDoc env c coll docRaw).1, e.isUpdateDocCall = false := by
  intro e he
  rcases UpdateDoc_events env c coll docRaw with h | h <;> rw [h] at he <;> simp at he
  subst he
  rfl

/-- Counterexample to C4 as stated.  The store answers the entry `null`, read
as revision 0, and the local document carries revision 0; without
`--dry-run` the differ reports the pair as modified, the formatter fails on
the left side, and the action returns the error of the formatter: `UpdateDoc`
is not called. -/
theorem save_needs_rendered_report :
    load nullFreshScenario.env (demoCtx false)
        = ([.readFile "docs/posts/a.json"], .ok ⟨"posts", "a", localFresh, ⟨"a", 0⟩⟩) ∧
      fetch nullFreshScenario.env (demoCtx false) ⟨"posts", "a", localFresh, ⟨"a", 0⟩⟩
        = ([.callGetDoc "posts" "a",
            .http .post "/api/collections/get/posts" (some (.byID "a" 1)),
            .mkdirAll "docs", .writeFile "docs/posts-.json" "null"],
          .ok (⟨"https://cms.example", "secret"⟩, ⟨"", 0, "null", "docs/posts-.json"⟩)) ∧
      nullFreshScenario.env.compare "null" localFresh = .ok ["_id", "title"] ∧
      nullFreshScenario.env.modified ["_id", "title"] = true ∧
      (demoCtx false).dryRun = false ∧
      (updateAction nullFreshScenario.env (demoCtx false)).1.filter Event.isUpdateDocCall
        = [] ∧
      (updateAction nullFreshScenario.env (demoCtx false)).2 = .error formatError :=
  ⟨rfl, rfl, rfl, rfl, rfl, rfl, rfl⟩

/-- C4 as amended, commit.  Whenever the local document was loaded, the remote one
fetched, the differ reports the pair as modified, the diff report was
rendered, the two revisions are equal and dry-run is unset, the update action
calls `UpdateDoc` exactly once, with the collection and the JSON text of the
local document; if that call returns a revision the action prints the old and
the new revision and returns nil, and if it returns an error the action
returns that same error. -/
theorem commit_saves_once {V D : Type} (env : Env V D) (cCtx : Ctx) (ev₁ ev₂ : List Event)
    (l : Loaded) (cl : Client) (svrDoc : Document) (d : D) (p : V) (ascii : String)
    (hload : load env cCtx = (ev₁, .ok l))
    (hfetch : fetch env cCtx l = (ev₂, .ok (cl, svrDoc)))
    (hcmp : env.compare (svrJSON env svrDoc) l.raw = .ok d)
    (hmod : env.modified d = true)
    (hparse : env.jsonUnmarshal (svrJSON env svrDoc) = .ok p)
    (hfmt : env.format p ⟨true, true⟩ d = .ok ascii)
    (hrev : l.meta.Rev = svrDoc.Rev)
    (hdry : cCtx.dryRun = false) :
    (updateAction env cCtx).1.filter Event.isUpdateDocCall = [.callUpdateDoc l.coll l.raw] ∧
    (∀ newRev : Int, (UpdateDoc env cl l.coll l.raw).2 = .ok newRev →
      updateAction env cCtx
        = (ev₁ ++ ev₂ ++ (diffReport ascii
            ++ .callUpdateDoc l.coll l.raw :: (UpdateDoc env cl l.coll l.raw).1
            ++ [.stdout (updatedText l.meta.ID l.meta.Rev newRev)]), .ok ())) ∧
    (∀ e : Err, (UpdateDoc env cl l.coll l.raw).2 = .error e →
      updateAction env cCtx
        = (ev₁ ++ ev₂ ++ (diffReport ascii
            ++ .callUpdateDoc l.coll l.raw :: (UpdateDoc env cl l.coll l.raw).1), .error e)) := by
  have hrun := updateAction_reach env cCtx ev₁ ev₂ l cl svrDoc hload hfetch
  have hrec := reconcile_rendered env cCtx.dryRun cl l svrDoc d p ascii hcmp hmod hparse hfmt
  have hne : ¬ (svrDoc.Rev ≠ l.meta.Rev) := by simp [hrev]
  rw [if_neg hne, hdry] at hrec
  simp only [Bool.false_eq_true, if_false] at hrec
  rw [hdry] at hrun
  have hpre := filter_update_nil (ev₁ ++ ev₂)
    (phases_no_update env cCtx ev₁ ev₂ l cl svrDoc hload hfetch)
  have hrep := filter_update_nil (diffReport ascii) (diffReport_events ascii)
  have hupd := filter_update_nil _ (UpdateDoc_no_update env cl l.coll l.raw)
  rw [hrun, hrec]
  cases hu : UpdateDoc env cl l.coll l.raw with
  | mk ev r =>
    rw [hu] at hupd
    cases r with
    | error e =>
      refine ⟨?_, ?_, ?_⟩
      · simp only [List.filter_append, hpre, hrep, List.filter_cons, Event.isUpdateDocCall]
        simpa using hupd
      · intro newRev h
        simp at h
      · intro e2 h
        simp at h
        subst h
        rfl
    | ok newRev =>
      refine ⟨?_, ?_, ?_⟩
      · simp only [List.filter_append, hpre, hrep, List.filter_cons, Event.isUpdateDocCall,
          List.filter_nil]
        simpa using hupd
      · intro n h
        simp at h
        subst h
        rfl
      · intro e2 h
        simp at h

/-- Witness of C4: the title edited on top of the current revision 3; the save
answers revision 4. -/
theorem commit_saves_once_witness :
    (updateAction editScenario.env (demoCtx false)).1.filter Event.isUpdateDocCall
        = [.callUpdateDoc "posts" localNew] ∧
      updateAction editScenario.env (demoCtx false)
        = ([.readFile "docs/posts/a.json"]
            ++ [.callGetDoc "posts" "a",
                .http .post "/api/collections/get/posts" (some (.byID "a" 1)),
                .mkdirAll "docs", .writeFile "docs/posts-a.json" remoteOld]
            ++ (diffReport titleReport
              ++ .callUpdateDoc "posts" localNew
                :: [.http .post "/api/collections/save/posts" (some (.data localNew))]
              ++ [.stdout (updatedText "a" 3 4)]), .ok ()) :=
  have h := commit_saves_once editScenario.env (demoCtx false) _ _
    ⟨"posts", "a", localNew, ⟨"a", 3⟩⟩ ⟨"https://cms.example", "secret"⟩
    ⟨"a", 3, remoteOld, "docs/posts-a.json"⟩ ["title"] remoteOld titleReport
    rfl rfl rfl rfl rfl rfl rfl rfl
  ⟨h.1, h.2.1 4 rfl⟩

/-- C5, normalize.  For every embedded `_id` and every caller-supplied id, the
id resolution of lines 97-102 fails exactly when both are empty, and then
with the error of line 99; otherwise it yields the embedded `_id` when that
is non-empty and the caller-supplied id when it is empty.  Lines 88-102 as a
whole run this resolution on the `_id` the decoder read and keep the decoded
revision, after turning an error of the decoder into `invalid JSON`. -/
theorem normalize_resolves_id {V D : Type} (env : Env V D) (raw metaID id : String) :
    ((∃ e, resolveID metaID id = .error e) ↔ (metaID = "" ∧ id = "")) ∧
    (resolveID metaID id
        = .error (.new "JSON missing _id field, and no document ID provided")
      ↔ (metaID = "" ∧ id = "")) ∧
    (¬ (metaID = "" ∧ id = "") →
      resolveID metaID id = .ok (if metaID = "" then id else metaID)) ∧
    extractMeta env raw id
      = match env.unmarshalMeta raw with
        | (_, some e) => .error (.wrap "invalid JSON" e)
        | (m, none) =>
          match resolveID m.ID id with
          | .error e => .error e
          | .ok resolved => .ok ⟨resolved, m.Rev⟩ := by
  refine ⟨?_, ?_, ?_, ?_⟩
  · by_cases h1 : metaID = "" <;> by_cases h2 : id = "" <;> simp [resolveID, h1, h2]
  · by_cases h1 : metaID = "" <;> by_cases h2 : id = "" <;> simp [resolveID, h1, h2]
  · intro h
    by_cases h1 : metaID = ""
    · have h2 : id ≠ "" := fun h2 => h ⟨h1, h2⟩
      simp [resolveID, h1, h2]
    · simp [resolveID, h1]
  · simp only [extractMeta]

/-- Witness of C5: a document without `_id` and the caller-supplied id `a`. -/
theorem normalize_resolves_id_witness :
    resolveID "" "a" = .ok "a" ∧ extractMeta noIDScenario.env localNoID "a" = .ok ⟨"a", 3⟩ :=
  ⟨(normalize_resolves_id noIDScenario.env localNoID "" "a").2.2.1 (by decide), rfl⟩

/-- Counterexample to C6 as stated.  The document has the non-empty string
`_id` "a" and the string "3" as `_modified`; the decoder stores the id and
refuses the revision, and `UpdateDoc` returns that error without sending a
request. -/
theorem UpdateDoc_rejects_text_revision :
    (textRevScenario.env.unmarshalMeta localTextRev).1.ID = "a" ∧
      UpdateDoc textRevScenario.env ⟨"https://cms.example", "secret"⟩ "posts" localTextRev
        = ([], .error (.lib
            "json: cannot unmarshal string into Go struct field ._modified of type int64")) :=
  ⟨rfl, rfl⟩

/-- C6 as amended, validation of `UpdateDoc`.  For every document whose decoded
`_id` is empty (absent, null or the empty string) `UpdateDoc` returns an error and
performs no effect, in particular sends no request; for every document the
decoder accepts with a non-empty `_id`, as soon as the request can be built,
exactly one request is sent, a POST of the document to the save endpoint of
the collection, and the revision decoded from its answer is the result. -/
theorem UpdateDoc_validation {V D : Type} (env : Env V D) (c : Client) (coll docRaw : String) :
    ((env.unmarshalMeta docRaw).1.ID = "" →
      ∃ e, UpdateDoc env c coll docRaw = ([], .error e)) ∧
    (∀ m : Meta, env.unmarshalMeta docRaw = (m, none) → m.ID = "" →
      UpdateDoc env c coll docRaw = ([], .error (.new "document JSON missing _id field"))) ∧
    (∀ m : Meta, env.unmarshalMeta docRaw = (m, none) → m.ID ≠ "" →
      env.newRequest c .post ("/api/collections/save/" ++ coll) (some (.data docRaw)) = none →
      (UpdateDoc env c coll docRaw).1
          = [.http .post ("/api/collections/save/" ++ coll) (some (.data docRaw))] ∧
      (∀ (resp : Response) (rev : Int),
        env.roundTrip c .post ("/api/collections/save/" ++ coll) (some (.data docRaw))
          = .ok resp →
        resp.StatusCode < 300 → env.decodeSaved resp.Body = .ok rev →
        (UpdateDoc env c coll docRaw).2 = .ok rev)) := by
  refine ⟨?_, ?_, ?_⟩
  · intro h
    cases hm : env.unmarshalMeta docRaw with
    | mk m err =>
      rw [hm] at h
      cases err with
      | some e => exact ⟨e, by simp [UpdateDoc, hm]⟩
      | none =>
        refine ⟨.new "document JSON missing _id field", ?_⟩
        simp only [UpdateDoc, hm]
        simp at h
        simp [h]
  · intro m hm hid
    simp [UpdateDoc, hm, hid]
  · intro m hm hid hreq
    constructor
    · simp only [UpdateDoc, hm, apiRequest, Option.isSome_some, if_true, hreq, hid, if_false]
      cases env.roundTrip c .post ("/api/collections/save/" ++ coll) (some (.data docRaw)) with
      | error e => rfl
      | ok resp =>
        by_cases hs : resp.StatusCode ≥ 300
        · simp [hs]
        · cases hd : env.decodeSaved resp.Body <;> simp [hs, hd]
    · intro resp rev hresp hs hd
      have hs2 : ¬ resp.StatusCode ≥ 300 := by omega
      simp [UpdateDoc, hm, apiRequest, hreq, hid, hresp, hs2, hd]

/-- Witness of C6: the edited document has `_id` "a"; the store answers revision 4. -/
theorem UpdateDoc_validation_witness :
    UpdateDoc editScenario.env ⟨"https://cms.example", "secret"⟩ "posts" localNew
        = ([.http .post "/api/collections/save/posts" (some (.data localNew))], .ok 4) ∧
      UpdateDoc noIDScenario.env ⟨"https://cms.example", "secret"⟩ "posts" localNoID
        = ([], .error (.new "document JSON missing _id field")) :=
  have h := UpdateDoc_validation editScenario.env ⟨"https://cms.example", "secret"⟩
    "posts" localNew
  have h2 := UpdateDoc_validation noIDScenario.env ⟨"https://cms.example", "secret"⟩
    "posts" localNoID
  ⟨Prod.ext (h.2.2 ⟨"a", 3⟩ rfl (by decide) rfl).1
      ((h.2.2 ⟨"a", 3⟩ rfl (by decide) rfl).2 ⟨200, ""⟩ 4 rfl (by decide) rfl),
    h2.2.1 ⟨"", 3⟩ rfl rfl⟩

theorem isHttp_of_events {evs : List Event} {m : Method} {path : String}
    {body : Option Payload} (h : evs = [] ∨ evs = [.http m path body]) :
    ∀ e ∈ evs, e.isHttp = true := by
  intro e he
  rcases h with h | h <;> subst h <;> simp at he
  subst he
  rfl

theorem ListCollections_events {V D : Type} (env : Env V D) (c : Client) :
    ∀ e ∈ (ListCollections env c).1, e.isHttp = true := by
  have hap := apiRequest_events env c "/api/collections/listCollections" none
    (some env.decodeNames) []
  simp only [ListCollections]
  split <;>
  · rename_i ev x heq
    rw [heq] at hap
    exact isHttp_of_events hap

theorem FetchDocuments_events {V D : Type} (env : Env V D) (c : Client) (coll : String) :
    ∀ e ∈ (FetchDocuments env c coll).1, e.isHttp = true := by
  have hap := apiRequest_events env c ("/api/collections/get/" ++ coll) (some .all)
    (some env.decodeEntries) []
  simp only [FetchDocuments]
  split <;>
  · rename_i ev x heq
    rw [heq] at hap
    exact isHttp_of_events hap

/-- Counterexample to C7 as stated: fetching the document `a` of `posts`
creates the directory `docs` and writes the file `docs/posts-a.json`. -/
theorem GetDoc_writes_file :
    GetDoc editScenario.env ⟨"https://cms.example", "secret"⟩ "posts" "a"
        = ([.http .post "/api/collections/get/posts" (some (.byID "a" 1)),
            .mkdirAll "docs", .writeFile "docs/posts-a.json" remoteOld],
          .ok ⟨"a", 3, remoteOld, "docs/posts-a.json"⟩) ∧
      ¬ (∀ e ∈ (GetDoc editScenario.env ⟨"https://cms.example", "secret"⟩ "posts" "a").1,
          e.isFsWrite = false) := by
  refine ⟨rfl, ?_⟩
  intro h
  have := h (.writeFile "docs/posts-a.json" remoteOld)
    (by
      have hg : (GetDoc editScenario.env ⟨"https://cms.example", "secret"⟩ "posts" "a").1
          = [.http .post "/api/collections/get/posts" (some (.byID "a" 1)),
              .mkdirAll "docs", .writeFile "docs/posts-a.json" remoteOld] := rfl
      rw [hg]
      simp)
  simp [Event.isFsWrite] at this

/-- C7 as amended.  `ListCollections`, `FetchDocuments` and `UpdateDoc` perform
HTTP requests only.  `GetDoc` performs its HTTP request and then, whenever the
fetch answered at least one entry, creates the directory `docs` and, if that
succeeded, writes the first entry to `docs/<collection>-<_id>.json`, returning
the filesystem error if either step fails; when the fetch fails or answers no
entry it performs HTTP requests only. -/
theorem gateway_effects {V D : Type} (env : Env V D) (c : Client) (coll id docRaw : String) :
    (∀ e ∈ (ListCollections env c).1, e.isHttp = true) ∧
    (∀ e ∈ (FetchDocuments env c coll).1, e.isHttp = true) ∧
    (∀ e ∈ (UpdateDoc env c coll docRaw).1, e.isHttp = true) ∧
    (∀ (ev : List Event) (raw : String) (rest : List String),
      apiRequest env c ("/api/collections/get/" ++ coll) (some (.byID id 1))
          (some env.decodeEntries) [] = (ev, .ok (raw :: rest)) →
      (∀ e ∈ ev, e.isHttp = true) ∧
      (∀ e : Err, env.mkdirAll "docs" = some e →
        GetDoc env c coll id = (ev ++ [.mkdirAll "docs"], .error e)) ∧
      (env.mkdirAll "docs" = none →
        (GetDoc env c coll id).1
          = ev ++ [.mkdirAll "docs",
              .writeFile (env.pathJoin
                ["docs", coll ++ "-" ++ (env.unmarshalMeta raw).1.ID ++ ".json"]) raw] ∧
        (∀ e : Err,
          env.writeFile (env.pathJoin
            ["docs", coll ++ "-" ++ (env.unmarshalMeta raw).1.ID ++ ".json"]) raw = some e →
          (GetDoc env c coll id).2 = .error e))) ∧
    (∀ (ev : List Event) (r : Except Err (List String)),
      apiRequest env c ("/api/collections/get/" ++ coll) (some (.byID id 1))
          (some env.decodeEntries) [] = (ev, r) →
      (r = .ok [] ∨ ∃ e, r = .error e) →
      ∀ e ∈ (GetDoc env c coll id).1, e.isHttp = true) := by
  have hap := apiRequest_events env c ("/api/collections/get/" ++ coll)
    (some (.byID id 1)) (some env.decodeEntries) []
  refine ⟨ListCollections_events env c, FetchDocuments_events env c coll,
    isHttp_of_events (UpdateDoc_events env c coll docRaw), ?_, ?_⟩
  · intro ev raw rest hreq
    rw [hreq] at hap
    refine ⟨isHttp_of_events hap, ?_, ?_⟩
    · intro e hmk
      simp [GetDoc, hreq, hmk]
    · intro hmk
      constructor
      · simp only [GetDoc, hreq, hmk]
        split <;> rfl
      · intro e hw
        simp [GetDoc, hreq, hmk, hw]
  · intro ev r hreq hr
    rw [hreq] at hap
    have hev := isHttp_of_events hap
    rcases hr with h | ⟨e, h⟩
    · subst h
      simp only [GetDoc, hreq]
      exact hev
    · subst h
      simp only [GetDoc, hreq]
      exact hev

/-- Witness of C7 as amended: the effects of fetching the document `a` of `posts`. -/
theorem gateway_effects_witness :
    (GetDoc editScenario.env ⟨"https://cms.example", "secret"⟩ "posts" "a").1
      = [.http .post "/api/collections/get/posts" (some (.byID "a" 1))]
        ++ [.mkdirAll "docs",
            .writeFile (editScenario.env.pathJoin
              ["docs", "posts" ++ "-" ++ (editScenario.env.unmarshalMeta remoteOld).1.ID
                ++ ".json"]) remoteOld] :=
  (((gateway_effects editScenario.env ⟨"https://cms.example", "secret"⟩ "posts" "a"
      localNew).2.2.2.1 _ remoteOld [] rfl).2.2 rfl).1

theorem elem_of_isPrefixOf (p : List Char) (line : String) (c : Char) (hc : c ∈ p)
    (h : p.isPrefixOf line.data = true) : line.data.elem c = true := by
  rw [ List.isPrefixOf_iff_prefix] at h
  simpa using h.subset hc

/-- Every line the formatter marks as changed passes the test of line 150. -/
theorem marked_lines_are_shown (line : String) (h : markedChanged line = true) :
    lineShown line = true := by
  unfold markedChanged at h
  unfold lineShown
  simp only [Bool.or_eq_true] at h ⊢
  rcases h with ((h | h) | h) | h
  · exact Or.inl (elem_of_isPrefixOf _ line '+' (by decide) h)
  · exact Or.inr (elem_of_isPrefixOf _ line '-' (by decide) h)
  · exact Or.inl (elem_of_isPrefixOf _ line '+' (by decide) h)
  · exact Or.inr (elem_of_isPrefixOf _ line '-' (by decide) h)

theorem get_ne_save (coll coll2 : String) :
    ("/api/collections/get/" ++ coll == "/api/collections/save/" ++ coll2) = false := by
  rw [beq_eq_false_iff_ne]
  intro h
  have h2 := congrArg String.data h
  simp [String.data_append] at h2

theorem GetDoc_not_save {V D : Type} (env : Env V D) (c : Client) (coll id coll2 : String) :
    ∀ e ∈ (GetDoc env c coll id).1, e.isSaveRequest coll2 = false := by
  intro e he
  have hap := apiRequest_events env c ("/api/collections/get/" ++ coll)
    (some (.byID id 1)) (some env.decodeEntries) []
  have hhttp : ∀ ev : List Event,
      (ev = [] ∨ ev = [.http (if (some (Payload.byID id 1)).isSome then Method.post
        else Method.get) ("/api/collections/get/" ++ coll) (some (.byID id 1))]) →
      ∀ x ∈ ev, x.isSaveRequest coll2 = false := by
    intro ev h x hx
    rcases h with h | h <;> subst h <;> simp at hx
    subst hx
    exact get_ne_save coll coll2
  simp only [GetDoc] at he
  split at he
  · rename_i ev err heq
    rw [heq] at hap
    exact hhttp ev hap e he
  · rename_i ev entries heq
    rw [heq] at hap
    have hev := hhttp ev hap
    split at he
    · exact hev e he
    · split at he
      · simp at he
        rcases he with h | h
        · exact hev e h
        · subst h; rfl
      · split at he <;>
        · simp at he
          rcases he with h | h | h
          · exact hev e h
          · subst h; rfl
          · subst h; rfl

/-- The action once the diff is non-empty, its report rendered, the revisions
equal and dry-run unset: the effects and the result of `UpdateDoc` follow the
report. -/
theorem updateAction_save {V D : Type} (env : Env V D) (cCtx : Ctx) (ev₁ ev₂ : List Event)
    (l : Loaded) (cl : Client) (svrDoc : Document) (d : D) (p : V) (ascii : String)
    (hload : load env cCtx = (ev₁, .ok l))
    (hfetch : fetch env cCtx l = (ev₂, .ok (cl, svrDoc)))
    (hcmp : env.compare (svrJSON env svrDoc) l.raw = .ok d)
    (hmod : env.modified d = true)
    (hparse : env.jsonUnmarshal (svrJSON env svrDoc) = .ok p)
    (hfmt : env.format p ⟨true, true⟩ d = .ok ascii)
    (hrev : l.meta.Rev = svrDoc.Rev)
    (hdry : cCtx.dryRun = false) :
    updateAction env cCtx
      = match UpdateDoc env cl l.coll l.raw with
        | (ev, .error e) =>
          (ev₁ ++ ev₂ ++ (diffReport ascii ++ .callUpdateDoc l.coll l.raw :: ev), .error e)
        | (ev, .ok newRev) =>
          (ev₁ ++ ev₂ ++ (diffReport ascii ++ .callUpdateDoc l.coll l.raw :: ev
            ++ [.stdout (updatedText l.meta.ID l.meta.Rev newRev)]), .ok ()) := by
  have hrun := updateAction_reach env cCtx ev₁ ev₂ l cl svrDoc hload hfetch
  have hrec := reconcile_rendered env cCtx.dryRun cl l svrDoc d p ascii hcmp hmod hparse hfmt
  have hne : ¬ (svrDoc.Rev ≠ l.meta.Rev) := by simp [hrev]
  rw [if_neg hne, hdry] at hrec
  simp only [Bool.false_eq_true, if_false] at hrec
  rw [hdry] at hrun
  rw [hrun, hrec]
  cases hu : UpdateDoc env cl l.coll l.raw with
  | mk ev r => cases r <;> rfl

/-- C9 at a failing input.  For the report of a title change in a document with
the unchanged field `"slug": "my-post"`, the loop of lines 149-153 prints
three lines, the first being the unchanged line of `slug`, while the lines
marked as changed are the two lines of `title`. -/
theorem diff_filter_prints_unchanged_line :
    printedDiffLines slugReport
        = ["   \"slug\": \"my-post\",",
           "\x1b[30;41m-  \"title\": \"Old\"\x1b[0m",
           "\x1b[30;42m+  \"title\": \"New\"\x1b[0m"] ∧
      (splitLines slugReport).filter markedChanged
        = ["\x1b[30;41m-  \"title\": \"Old\"\x1b[0m",
           "\x1b[30;42m+  \"title\": \"New\"\x1b[0m"] ∧
      markedChanged "   \"slug\": \"my-post\"," = false := by
  decide

theorem readLocal_ok {V D : Type} (env : Env V D) (coll id format tempfile : String)
    (ev : List Event) (raw : String)
    (h : readLocal env coll id format tempfile = (ev, .ok raw)) :
    ∃ path, env.readFile path = .ok raw := by
  simp only [readLocal] at h
  split at h
  · split at h
    · simp at h
    · rename_i r hr
      simp only [Prod.mk.injEq, Except.ok.injEq] at h
      exact ⟨_, by rw [hr, h.2]⟩
  · split at h
    · simp at h
    · rename_i r hr
      simp only [Prod.mk.injEq, Except.ok.injEq] at h
      exact ⟨_, by rw [hr, h.2]⟩

theorem load_ok {V D : Type} (env : Env V D) (cCtx : Ctx) (ev₁ : List Event) (l : Loaded)
    (hload : load env cCtx = (ev₁, .ok l)) :
    l.coll = cCtx.Get 0 ∧ l.id = cCtx.Get 1 ∧ extractMeta env l.raw l.id = .ok l.meta ∧
      ∃ path raw, env.readFile path = .ok raw ∧
        toJSON env (env.toLower cCtx.format) raw = .ok l.raw := by
  simp only [load] at hload
  split at hload
  · simp at hload
  · split at hload
    · simp at hload
    · split at hload
      · simp at hload
      · rename_i ev raw hread
        obtain ⟨path, hpath⟩ := readLocal_ok env _ _ _ _ ev raw hread
        split at hload
        · simp at hload
        · rename_i raw2 hjson
          split at hload
          · simp at hload
          · rename_i meta hmeta
            simp only [Prod.mk.injEq, Except.ok.injEq] at hload
            obtain ⟨_, rfl⟩ := hload
            exact ⟨rfl, rfl, hmeta, path, raw, hpath, hjson⟩

theorem fetch_ok {V D : Type} (env : Env V D) (cCtx : Ctx) (l : Loaded) (ev₂ : List Event)
    (cl : Client) (svrDoc : Document)
    (hfetch : fetch env cCtx l = (ev₂, .ok (cl, svrDoc))) :
    ∃ ev, ev₂ = .callGetDoc l.coll l.meta.ID :: ev ∧
      GetDoc env cl l.coll l.meta.ID = (ev, .ok svrDoc) := by
  simp only [fetch] at hfetch
  split at hfetch
  · simp at hfetch
  · split at hfetch
    · simp at hfetch
    · rename_i cl2 _ ev doc heq
      simp only [Prod.mk.injEq, Except.ok.injEq] at hfetch
      obtain ⟨rfl, rfl, rfl⟩ := hfetch
      exact ⟨ev, rfl, heq⟩

/-- C10, the caller-supplied id is not injected.  Whenever the loaded local
document decodes with an empty `_id`, the id given on the command line is
non-empty and is the one `GetDoc` is called with, and the JSON text kept for
the save is the file read, converted if the format is yaml; if moreover the differ
reports the pair as modified, the report was rendered, the revisions are
equal and dry-run is unset, `UpdateDoc` is called with the JSON text of the
local document as loaded, returns the error `document JSON missing _id field`
without any effect, so without sending a save request, and the action returns
that error. -/
theorem caller_id_not_injected {V D : Type} (env : Env V D) (cCtx : Ctx)
    (ev₁ ev₂ : List Event) (l : Loaded) (cl : Client) (svrDoc : Document) (d : D) (p : V)
    (ascii : String)
    (hload : load env cCtx = (ev₁, .ok l))
    (hnoid : (env.unmarshalMeta l.raw).1.ID = "")
    (hfetch : fetch env cCtx l = (ev₂, .ok (cl, svrDoc)))
    (hcmp : env.compare (svrJSON env svrDoc) l.raw = .ok d)
    (hmod : env.modified d = true)
    (hparse : env.jsonUnmarshal (svrJSON env svrDoc) = .ok p)
    (hfmt : env.format p ⟨true, true⟩ d = .ok ascii)
    (hrev : l.meta.Rev = svrDoc.Rev)
    (hdry : cCtx.dryRun = false) :
    cCtx.Get 1 ≠ "" ∧
    (∃ ev, ev₂ = .callGetDoc (cCtx.Get 0) (cCtx.Get 1) :: ev) ∧
    (∃ path raw, env.readFile path = .ok raw ∧
      toJSON env (env.toLower cCtx.format) raw = .ok l.raw) ∧
    UpdateDoc env cl l.coll l.raw = ([], .error (.new "document JSON missing _id field")) ∧
    updateAction env cCtx
      = (ev₁ ++ ev₂ ++ (diffReport ascii ++ [.callUpdateDoc l.coll l.raw]),
          .error (.new "document JSON missing _id field")) ∧
    (∀ e ∈ (updateAction env cCtx).1, e.isSaveRequest l.coll = false) := by
  obtain ⟨hcoll, hid, hext, hfile⟩ := load_ok env cCtx ev₁ l hload
  obtain ⟨ev, hev, hget⟩ := fetch_ok env cCtx l ev₂ cl svrDoc hfetch
  -- the decoder accepted the document, and its `_id` is empty
  have hdec : ∃ m, env.unmarshalMeta l.raw = (m, none) ∧ m.ID = "" := by
    cases hm : env.unmarshalMeta l.raw with
    | mk m err =>
      cases err with
      | some e => simp [extractMeta, hm] at hext
      | none =>
        rw [hm] at hnoid
        exact ⟨m, rfl, hnoid⟩
  obtain ⟨m, hm, hmid⟩ := hdec
  have hres : cCtx.Get 1 ≠ "" ∧ l.meta.ID = cCtx.Get 1 := by
    rw [hid] at hext
    by_cases h2 : cCtx.Get 1 = ""
    · simp [extractMeta, hm, resolveID, hmid, h2] at hext
    · simp [extractMeta, hm, resolveID, hmid, h2] at hext
      exact ⟨h2, by rw [← hext]⟩
  have hupd : UpdateDoc env cl l.coll l.raw
      = ([], .error (.new "document JSON missing _id field")) := by
    simp [UpdateDoc, hm, hmid]
  have hrun : updateAction env cCtx
      = (ev₁ ++ ev₂ ++ (diffReport ascii ++ [.callUpdateDoc l.coll l.raw]),
          .error (.new "document JSON missing _id field")) := by
    have h := updateAction_save env cCtx ev₁ ev₂ l cl svrDoc d p ascii hload hfetch hcmp
      hmod hparse hfmt hrev hdry
    rw [h, hupd]
  refine ⟨hres.1, ⟨ev, by rw [hev, hcoll, hres.2]⟩, hfile, hupd, hrun, ?_⟩
  intro e he
  rw [hrun] at he
  simp only [List.mem_append, List.mem_singleton] at he
  rcases he with (h | h) | h | h
  · obtain ⟨q, rfl⟩ := load_events env cCtx e (by rw [hload]; exact h)
    rfl
  · rw [hev] at h
    simp only [List.mem_cons] at h
    rcases h with h | h
    · subst h; rfl
    · have hg := GetDoc_not_save env cl l.coll l.meta.ID l.coll
      rw [hget] at hg
      exact hg e h
  · unfold diffReport at h
    simp at h
    rcases h with h | ⟨a, _, h⟩ <;> subst h <;> rfl
  · subst h; rfl

/-- Witness of C10: the edited file has no `_id`, the command line names `a`. -/
theorem caller_id_not_injected_witness :
    updateAction noIDScenario.env (demoCtx false)
      = ([.readFile "docs/posts/a.json"]
          ++ [.callGetDoc "posts" "a",
              .http .post "/api/collections/get/posts" (some (.byID "a" 1)),
              .mkdirAll "docs", .writeFile "docs/posts-a.json" remoteOld]
          ++ (diffReport noIDReport ++ [.callUpdateDoc "posts" localNoID]),
        .error (.new "document JSON missing _id field")) :=
  (caller_id_not_injected noIDScenario.env (demoCtx false) _ _
    ⟨"posts", "a", localNoID, ⟨"a", 3⟩⟩ ⟨"https://cms.example", "secret"⟩
    ⟨"a", 3, remoteOld, "docs/posts-a.json"⟩ ["_id", "title"] remoteOld noIDReport
    rfl rfl rfl rfl rfl rfl rfl rfl rfl).2.2.2.2.1

/-- The yaml case of lines 76-86 of update.go is `Codecs.toJSON` on the codec
calls of the environment, and the json case leaves the text as it is. -/
theorem toJSON_codecs {V D : Type} (env : Env V D) (raw : String) :
    toJSON env "yaml" raw = env.codecs.toJSON raw ∧ toJSON env "json" raw = .ok raw := by
  constructor
  · simp only [toJSON, Codecs.toJSON, Env.codecs, if_true]
    cases env.yamlUnmarshal raw with
    | error e => rfl
    | ok y =>
      dsimp only
      cases env.marshalIndent y <;> rfl
  · simp [toJSON]

/-- A document whose numbers are 3, 0.1 and 123456 comes back from the YAML
mirror as it was. -/
theorem yaml_mirror_keeps_plain_document :
    goCodecs.toYAML plainDoc
        = .ok (.mapping [(.plain "_id", .plain "a"), (.plain "_modified", .plain "3"),
            (.plain "ratio", .plain "0.1"),
            (.plain "tags", .seq [.plain "x", .quoted "3", .plain "true", .plain "null"]),
            (.plain "title", .plain "Old"), (.plain "views", .plain "123456")]) ∧
      (match goCodecs.toYAML plainDoc with
        | .ok y => goCodecs.toJSON y
        | .error e => .error e) = .ok plainDoc :=
  ⟨rfl, rfl⟩

/-- C8 at a failing input.  For the document with `"views": 9223372036854775807`
the yaml case of `get` (decode the JSON, encode as YAML) writes
`views: 9.223372036854776e+18`, and the yaml case of `update` (decode the
YAML, encode as JSON) turns that file into the document with
`"views": 9223372036854776000`: the value that comes back is not the value
that went in, and the number is another number. -/
theorem yaml_mirror_changes_number :
    goCodecs.toYAML bigDoc = .ok bigYaml ∧
      goCodecs.toJSON bigYaml = .ok bigDocBack ∧
      bigDocBack ≠ bigDoc ∧
      (Decimal.mk false 9223372036854776 3).norm
        ≠ (Decimal.mk false 9223372036854775807 0).norm ∧
      9223372036854776 * 10 ^ 3 ≠ 9223372036854775807 := by
  refine ⟨rfl, rfl, ?_, by decide, by decide⟩
  intro h
  simp [bigDoc, bigDocBack] at h

theorem resolvePlain_string (s t : String) (h : resolvePlain s = .string t) : t = s := by
  unfold resolvePlain at h
  split at h
  · simp at h
  · split at h
    · simp at h
    · split at h
      · simp at h
      · split at h
        · simp at h
          exact h.symm
        · dsimp only at h
          repeat' split at h
          all_goals first
            | (simp at h; done)
            | (simp at h; exact h.symm)

/-- A string comes back from YAML as the same string, quoted or not. -/
theorem yaml_string_round_trip (s : String) :
    yamlUnmarshalAny (yamlString s) = .ok (.string s) := by
  unfold yamlString
  split
  · rename_i t ht
    have := resolvePlain_string s t ht
    subst this
    split
    · simp [yamlUnmarshalAny]
    · simp [yamlUnmarshalAny, ht]
  · simp [yamlUnmarshalAny]

end Cockcli
